import Mathlib

/-!
Verification development for the CRM lead-ingestion pipeline.

JavaScript strings are modelled as lists of characters (`JStr`); every
definition below is a shallow embedding of a function of the repository,
named after the source symbol it embeds.  Regular-expression operations of
the source are embedded as explicit character scanners whose doc comments
quote the regex they implement.
-/

namespace CRM

/-- A JavaScript string, modelled as its list of characters. -/
abbrev JStr := List Char

/-- Conversion from a Lean string literal. -/
def str (s : String) : JStr := s.toList

/-- The character U+007B (opening curly brace). -/
def braceO : Char := Char.ofNat 123

/-- The character U+007D (closing curly brace). -/
def braceC : Char := Char.ofNat 125

/-- The apostrophe character U+0027. -/
def aposChar : Char := Char.ofNat 39

/-- Whitespace characters relevant to the inputs of this code base
(the embedding of the regex class `\s`). -/
def isWsChar (c : Char) : Bool := c = ' ' || c = '\n' || c = '\t' || c = '\r'

/-- Embedding of `String.prototype.trim`. -/
def jsTrim (l : JStr) : JStr :=
  ((l.reverse.dropWhile isWsChar).reverse).dropWhile isWsChar

/-- Worker for `collapseWs`; the flag records a pending whitespace run. -/
def collapseWsGo : Bool → JStr → JStr
  | pending, [] => if pending then [' '] else []
  | pending, c :: rest =>
    if isWsChar c then collapseWsGo true rest
    else if pending then ' ' :: c :: collapseWsGo false rest
    else c :: collapseWsGo false rest

/-- Embedding of `value.replace(/\s+/g, ' ')`: every whitespace run becomes
a single space. -/
def collapseWs (l : JStr) : JStr := collapseWsGo false l

/-- ASCII lower-case conversion for one character, extended to the accented
letters appearing in this code base, embedding `toLowerCase`. -/
def lowerChar (c : Char) : Char :=
  if 'A' ≤ c && c ≤ 'Z' then Char.ofNat (c.toNat + 32)
  else if c = 'Á' then 'á' else if c = 'É' then 'é' else if c = 'Í' then 'í'
  else if c = 'Ó' then 'ó' else if c = 'Ú' then 'ú' else if c = 'Ü' then 'ü'
  else if c = 'Ñ' then 'ñ' else c

/-- ASCII upper-case conversion for one character, extended to accented
letters, embedding `toUpperCase`. -/
def upperChar (c : Char) : Char :=
  if 'a' ≤ c && c ≤ 'z' then Char.ofNat (c.toNat - 32)
  else if c = 'á' then 'Á' else if c = 'é' then 'É' else if c = 'í' then 'Í'
  else if c = 'ó' then 'Ó' else if c = 'ú' then 'Ú' else if c = 'ü' then 'Ü'
  else if c = 'ñ' then 'Ñ' else c

/-- Embedding of `toLowerCase` on a whole string. -/
def jsLower (l : JStr) : JStr := l.map lowerChar

/-- Unicode NFD/NFKD decomposition followed by removal of the combining
marks (`normalize('NFKD').replace(/[̀-ͯ]/g, '')`), for the
character repertoire of this code base. -/
def baseChar (c : Char) : Char :=
  if c = 'á' then 'a' else if c = 'é' then 'e' else if c = 'í' then 'i'
  else if c = 'ó' then 'o' else if c = 'ú' then 'u' else if c = 'ü' then 'u'
  else if c = 'ñ' then 'n'
  else if c = 'Á' then 'A' else if c = 'É' then 'E' else if c = 'Í' then 'I'
  else if c = 'Ó' then 'O' else if c = 'Ú' then 'U' else if c = 'Ü' then 'U'
  else if c = 'Ñ' then 'N' else c

/-- Split at every character satisfying `p`, keeping empty segments, as
JavaScript `split` does for a single-character separator class. -/
def splitOnPred (p : Char → Bool) : JStr → List JStr
  | [] => [[]]
  | c :: rest =>
    if p c then [] :: splitOnPred p rest
    else
      match splitOnPred p rest with
      | [] => [[c]]
      | h :: t => (c :: h) :: t

/-- Split on whitespace and drop the empty segments — the embedding of
`value.split(/\s+/).filter(Boolean)`. -/
def wsWords (l : JStr) : List JStr := (splitOnPred isWsChar l).filter (· ≠ [])

/-- Join a list of strings with a single space. -/
def joinSpace : List JStr → JStr
  | [] => []
  | [w] => w
  | w :: rest => w ++ ' ' :: joinSpace rest

/-- Join a list of strings with the given separator character. -/
def joinChar (sep : Char) : List JStr → JStr
  | [] => []
  | [w] => w
  | w :: rest => w ++ sep :: joinChar sep rest

/-- Does the first list occur as an initial segment of the second? -/
def isPre : JStr → JStr → Bool
  | [], _ => true
  | _ :: _, [] => false
  | p :: ps, c :: cs => p = c && isPre ps cs

/-- Substring containment test. -/
def containsSub (pat : JStr) : JStr → Bool
  | [] => isPre pat []
  | l@(_ :: rest) => isPre pat l || containsSub pat rest

/-- Scan left to right and return the first position (as the remaining
suffix) at which `f` yields a value. -/
def scanFor (f : JStr → Option JStr) : JStr → Option JStr
  | [] => f []
  | l@(_ :: rest) =>
    match f l with
    | some r => some r
    | none => scanFor f rest

/-- Word character of a JavaScript regex (`\w`, the basis of `\b`):
ASCII letters, digits and the underscore.  Accented letters are not word
characters. -/
def isWordChar (c : Char) : Bool :=
  ('a' ≤ c && c ≤ 'z') || ('A' ≤ c && c ≤ 'Z') || ('0' ≤ c && c ≤ '9') || c = '_'

/-- Match the given literal words separated by `\s+`, starting at the head
of the string; returns the remainder after the last word. -/
def matchWordSeq : List JStr → JStr → Option JStr
  | [], l => some l
  | w :: ws, l =>
    if isPre w l then
      let rest := l.drop w.length
      match ws with
      | [] => some rest
      | _ :: _ =>
        match rest with
        | c :: cs =>
          if isWsChar c then matchWordSeq ws (cs.dropWhile isWsChar) else none
        | [] => none
    else none

/-- Does the word sequence match at the head of the string with a word
boundary (`\b`) after its last word? -/
def wordSeqHere (ws : List JStr) (l : JStr) : Bool :=
  match matchWordSeq ws l with
  | none => false
  | some rest =>
    match rest with
    | [] => true
    | c :: _ => !isWordChar c

/-- Scan for `\b(words)\b`; the boolean argument records whether the
character before the current position is a word character. -/
def hasWordSeqGo (ws : List JStr) : Bool → JStr → Bool
  | _, [] => false
  | prev, l@(c :: rest) =>
    (!prev && wordSeqHere ws l) || hasWordSeqGo ws (isWordChar c) rest

/-- Embedding of a regex test `\b(w₁\s+w₂\s+…)\b` (word-boundary on both
sides). -/
def hasWordSeq (ws : List JStr) (l : JStr) : Bool := hasWordSeqGo ws false l

/-- Any of the word-sequence alternatives matches with boundaries. -/
def hasAnyWordSeq (pats : List (List JStr)) (l : JStr) : Bool :=
  pats.any (fun p => hasWordSeq p l)

/-- Scan for a word sequence without boundary requirements (a bare
`w₁\s+w₂` regex). -/
def hasSeqNoBd (ws : List JStr) : JStr → Bool
  | [] => (matchWordSeq ws []).isSome
  | l@(_ :: rest) => (matchWordSeq ws l).isSome || hasSeqNoBd ws rest

/-- Does a match of `opn[^excl]*close` start exactly at the head?  In every
pattern of this code base the excluded character is the first character of
`close`, so the run extends exactly to the first occurrence of `excl`. -/
def delimAt (opn close : JStr) (excl : Char) (l : JStr) : Bool :=
  if isPre opn l then
    let rest := l.drop opn.length
    let after := rest.dropWhile (fun c => c ≠ excl)
    isPre close after
  else false

/-- Containment test for `opn[^excl]*close`. -/
def hasDelimPat (opn close : JStr) (excl : Char) : JStr → Bool
  | [] => delimAt opn close excl []
  | l@(_ :: rest) => delimAt opn close excl l || hasDelimPat opn close excl rest

/-- One DP row step of the Levenshtein recurrence of the source
(`dp[i][j] = min(dp[i-1][j]+1, dp[i][j-1]+1, dp[i-1][j-1]+cost)`). -/
def levRowGo (ac : Char) : List Char → List Nat → Nat → Nat → List Nat
  | [], _, _, _ => []
  | bc :: bs, prevTail, diag, left =>
    let up := prevTail.headD 0
    let cost := if ac = bc then 0 else 1
    let cur := Nat.min (up + 1) (Nat.min (left + 1) (diag + cost))
    cur :: levRowGo ac bs prevTail.tail up cur

/-- Iterate the DP rows over the characters of `a`. -/
def levRows : List Char → List Char → List Nat → Nat → List Nat
  | [], _, row, _ => row
  | ac :: arest, b, row, i =>
    let newRow := (i + 1) :: levRowGo ac b row.tail (row.headD 0) (i + 1)
    levRows arest b newRow (i + 1)

/-- Embedding of the `levenshtein` function shared by the location
modules (full dynamic-programming table, with the source's early returns
for empty arguments). -/
def levenshtein (a b : JStr) : Nat :=
  if a.isEmpty then b.length
  else if b.isEmpty then a.length
  else (levRows a b (List.range (b.length + 1)) 0).getLastD 0

/-- Embedding of `safetyString` (part_005 line 1986): trim a present
string and drop it when empty.  The numeric branch of the source is not
needed by any claim input. -/
def safetyString (v : Option JStr) : Option JStr :=
  match v with
  | none => none
  | some s => let t := jsTrim s; if t = [] then none else some t

/-- Turn the empty string into `none` — the embedding of the JavaScript
idiom `value || undefined`. -/
def emptyToNone (l : JStr) : Option JStr := if l = [] then none else some l

/-- A JavaScript number of this code base, modelled as an unreduced
fraction with a positive denominator (every numeric value in the sources
is an exact small rational; keeping fractions unreduced keeps every
operation kernel-computable). -/
structure Frac where
  num : Int
  den : Int
deriving DecidableEq, Repr

/-- Build a fraction. -/
def frac (n d : Int) : Frac := ⟨n, d⟩

/-- Fraction addition. -/
def Frac.add (a b : Frac) : Frac := ⟨a.num * b.den + b.num * a.den, a.den * b.den⟩

/-- Fraction subtraction. -/
def Frac.sub (a b : Frac) : Frac := ⟨a.num * b.den - b.num * a.den, a.den * b.den⟩

/-- Fraction multiplication. -/
def Frac.mul (a b : Frac) : Frac := ⟨a.num * b.num, a.den * b.den⟩

/-- Fraction division (the divisor is positive in every use). -/
def Frac.div (a b : Frac) : Frac := ⟨a.num * b.den, a.den * b.num⟩

/-- Comparison of fractions with positive denominators. -/
def Frac.le (a b : Frac) : Bool := decide (a.num * b.den ≤ b.num * a.den)

/-- Strict comparison of fractions with positive denominators. -/
def Frac.lt (a b : Frac) : Bool := decide (a.num * b.den < b.num * a.den)

/-- Semantic equality of fractions with positive denominators. -/
def Frac.eqv (a b : Frac) : Prop := a.num * b.den = b.num * a.den

/-- Decidability of semantic fraction equality. -/
instance (a b : Frac) : Decidable (a.eqv b) := by
  unfold Frac.eqv
  infer_instance

/-! ## Embedding of `src/lib/utils/name.ts` -/

/-- The fixed block-list `BAD` of placeholder names (name.ts lines 1-41). -/
def badList : List JStr :=
  [str "full name", str "fullname", str "full_name",
   str "\x7b\x7bname\x7d\x7d", str "name placeholder", str "your name",
   str "tu nombre", str "nombre", str "introduce tu nombre",
   str "ingresa tu nombre", str "ingrese su nombre", str "coloca tu nombre",
   str "nombre completo", str "nombre y apellido", str "name",
   str "ig username", str "instagram username", str "n/a", str "na",
   str "-", str "—", str "unknown", str "desconocido", str "anonymous",
   str "anonimo", str "sin nombre", str "no name", str "placeholder",
   str "test", str "test name", str "prueba", str "first name",
   str "last name", str "firstname", str "lastname", str "username",
   str "user", str "customer", str "cliente"]

/-- Embedding of `PLACEHOLDER_FULL_RE`
`/\{\{[^}]*\}\}|\{[^}]*\}|%7B%7B[^%]*%7D%7D|<[^>]*>|\[[^\]]*\]/i`; the
`i` flag is realised by testing the lower-cased string. -/
def placeholderFullTest (s : JStr) : Bool :=
  let l := jsLower s
  hasDelimPat [braceO, braceO] [braceC, braceC] braceC l ||
  hasDelimPat [braceO] [braceC] braceC l ||
  hasDelimPat (str "%7b%7b") (str "%7d%7d") '%' l ||
  hasDelimPat (str "<") (str ">") '>' l ||
  hasDelimPat (str "[") (str "]") ']' l

/-- Embedding of `PLACEHOLDER_FRAGMENT_RE`
`/\{\{|\}\}|\{|\}|%7B%7B|%7D%7D/i`. -/
def placeholderFragTest (s : JStr) : Bool :=
  let l := jsLower s
  containsSub [braceO, braceO] l || containsSub [braceC, braceC] l ||
  containsSub [braceO] l || containsSub [braceC] l ||
  containsSub (str "%7b%7b") l || containsSub (str "%7d%7d") l

/-- The word alternatives of `BAD_NAME_WORDS_RE` (name.ts lines 55-56),
with the suffix quantifiers `[ao]s?` expanded to explicit alternatives. -/
def badWordPats : List (List JStr) :=
  [[str "gmail"], [str "hotmail"], [str "outlook"], [str "yahoo"],
   [str "correo"], [str "email"], [str "mail"], [str "username"],
   [str "instagram"], [str "ig", str "username"], [str "insta", str "username"],
   [str "vivo"], [str "vives"], [str "vivimos"], [str "vive"], [str "vivir"],
   [str "colombiano"], [str "colombiana"], [str "colombianos"], [str "colombianas"],
   [str "mexicano"], [str "mexicana"], [str "mexicanos"], [str "mexicanas"],
   [str "peruano"], [str "peruana"], [str "peruanos"], [str "peruanas"],
   [str "chileno"], [str "chilena"], [str "chilenos"], [str "chilenas"],
   [str "chilano"], [str "chilana"], [str "chilanos"], [str "chilanas"],
   [str "argentino"], [str "argentina"], [str "argentinos"], [str "argentinas"],
   [str "venezolano"], [str "venezolana"], [str "venezolanos"], [str "venezolanas"],
   [str "ecuatoriano"], [str "ecuatoriana"], [str "ecuatorianos"], [str "ecuatorianas"],
   [str "soy", str "de"], [str "soy", str "del"],
   [str "soy", str "originario"], [str "soy", str "originaria"]]

/-- Embedding of the `BAD_NAME_WORDS_RE` test (case-insensitive,
word-boundary delimited). -/
def badWordsTest (s : JStr) : Bool := hasAnyWordSeq badWordPats (jsLower s)

/-- Embedding of `BAD_NAME_PHRASE_RE` `/mi\s+correo\s+es/i` (no word
boundaries in the source pattern). -/
def badPhraseTest (s : JStr) : Bool :=
  hasSeqNoBd [str "mi", str "correo", str "es"] (jsLower s)

/-- A letter as counted by `isBadName`
(`/[^A-Za-zÁÉÍÓÚÜÑáéíóúüñ]/g` complement). -/
def isNameLetter (c : Char) : Bool :=
  ('a' ≤ c && c ≤ 'z') || ('A' ≤ c && c ≤ 'Z') ||
  c = 'Á' || c = 'É' || c = 'Í' || c = 'Ó' || c = 'Ú' || c = 'Ü' || c = 'Ñ' ||
  c = 'á' || c = 'é' || c = 'í' || c = 'ó' || c = 'ú' || c = 'ü' || c = 'ñ'

/-- An ASCII digit (`\d`). -/
def isDigitChar (c : Char) : Bool := '0' ≤ c && c ≤ '9'

/-- The checks of `isBadName` on the trimmed string, in source order.
The source returns `true` from the first firing check; as the checks have
no side effects this equals their boolean disjunction. -/
def isBadNameChecks (s : JStr) : Bool :=
  s = [] ||
  100 < s.length ||
  s.any (· = '@') ||
  placeholderFullTest s ||
  placeholderFragTest s ||
  badList.any (fun b => b == jsLower s) ||
  badWordsTest s ||
  badPhraseTest s ||
  (s.filter isNameLetter).length < 2 ||
  Nat.max 2 ((s.filter isNameLetter).length / 2) < (s.filter isDigitChar).length

/-- Embedding of `isBadName` (name.ts lines 92-110). -/
def isBadName (n : Option JStr) : Bool :=
  match n with
  | none => true
  | some n0 => isBadNameChecks (jsTrim n0)

/-- Worker for `replaceRunsWithSpace`; one character is consumed per
step, so fuel equal to the input length always suffices. -/
def replaceRunsGo (p : Char → Bool) : Nat → JStr → JStr
  | 0, l => l
  | _ + 1, [] => []
  | fuel + 1, c :: rest =>
    if p c then ' ' :: replaceRunsGo p fuel (rest.dropWhile p)
    else c :: replaceRunsGo p fuel rest

/-- Replace every maximal run of characters satisfying `p` by one
space — the embedding of `replace(/[cls]+/g, ' ')`. -/
def replaceRunsWithSpace (p : Char → Bool) (l : JStr) : JStr :=
  replaceRunsGo p l.length l

/-- Truncate the string from the first occurrence of a character
satisfying `p` to its end — the embedding of
`replace(/[cls].*$/, '')` for a single-line string. -/
def truncFromChar (p : Char → Bool) (l : JStr) : JStr := l.takeWhile (fun c => !p c)

/-- Worker of `stripPlaceholderArtifacts` rule 1, `replace(/{{[^}]*}}/g, ' ')`;
the fuel equals the input length, which one consumed character per step
always suffices for. -/
def stripBraceBlocksGo : Nat → JStr → JStr
  | 0, l => l
  | _ + 1, [] => []
  | fuel + 1, c :: rest =>
    if c = braceO then
      match rest with
      | c2 :: rest2 =>
        if c2 = braceO then
          let mid := rest2.takeWhile (fun x => x ≠ braceC)
          let after := rest2.drop mid.length
          match after with
          | a1 :: a2 :: tail =>
            if a1 = braceC && a2 = braceC then ' ' :: stripBraceBlocksGo fuel tail
            else c :: stripBraceBlocksGo fuel rest
          | _ => c :: stripBraceBlocksGo fuel rest
        else c :: stripBraceBlocksGo fuel rest
      | [] => [c]
    else c :: stripBraceBlocksGo fuel rest

/-- Global replacement of `{{[^}]*}}` by a space. -/
def stripBraceBlocks (l : JStr) : JStr := stripBraceBlocksGo l.length l

/-- The keyword alternatives `name|nombre|first\s*name|last\s*name` of
stripPlaceholderArtifacts rules 2 and 3 (`\s*` realised as the two word
sequences with and without inner whitespace, as the sequence matcher
already absorbs whitespace runs). -/
def placeholderKeyAlts : List (List JStr) :=
  [[str "firstname"], [str "first", str "name"],
   [str "lastname"], [str "last", str "name"],
   [str "nombre"], [str "name"]]

/-- Match one of the keyword alternatives at the head of the string,
returning the remainder. -/
def keyAltAt : List (List JStr) → JStr → Option JStr
  | [], _ => none
  | a :: rest, l =>
    match matchWordSeq a l with
    | some r => some r
    | none => keyAltAt rest l

/-- Rule 2 of `stripPlaceholderArtifacts`:
`replace(/\b(?:name|nombre|first\s*name|last\s*name)\s*}}/gi, ' ')`.
A match needs a word boundary before the keyword, optional whitespace and
a double closing brace after it. -/
def stripKeyCloseGo : Nat → Bool → JStr → JStr
  | 0, _, l => l
  | _ + 1, _, [] => []
  | fuel + 1, prev, l@(c :: rest) =>
    let matched : Option JStr :=
      if prev then none
      else
        match keyAltAt placeholderKeyAlts (jsLower l) with
        | none => none
        | some _ =>
          match keyAltAt placeholderKeyAlts l with
          | none =>
            -- case-insensitive match: retry on the lower-cased suffix and
            -- consume the same number of characters from the original
            match keyAltAt placeholderKeyAlts (jsLower l) with
            | some low => some (l.drop (l.length - low.length))
            | none => none
          | some r => some r
    match matched with
    | some r =>
      let r2 := r.dropWhile isWsChar
      match r2 with
      | b1 :: b2 :: tail =>
        if b1 = braceC && b2 = braceC then ' ' :: stripKeyCloseGo fuel false tail
        else c :: stripKeyCloseGo fuel (isWordChar c) rest
      | _ => c :: stripKeyCloseGo fuel (isWordChar c) rest
    | none => c :: stripKeyCloseGo fuel (isWordChar c) rest

/-- Global replacement for rule 2 of `stripPlaceholderArtifacts`. -/
def stripKeyClose (l : JStr) : JStr := stripKeyCloseGo l.length false l

/-- Rule 3 of `stripPlaceholderArtifacts`:
`replace(/{{\s*(?:name|nombre|first\s*name|last\s*name)\b/gi, ' ')`. -/
def stripOpenKeyGo : Nat → JStr → JStr
  | 0, l => l
  | _ + 1, [] => []
  | fuel + 1, l@(c :: rest) =>
    let matched : Option JStr :=
      match l with
      | o1 :: o2 :: r0 =>
        if o1 = braceO && o2 = braceO then
          let r1 := r0.dropWhile isWsChar
          match keyAltAt placeholderKeyAlts (jsLower r1) with
          | some low =>
            let r := r1.drop (r1.length - low.length)
            match r with
            | [] => some r
            | rc :: _ => if isWordChar rc then none else some r
          | none => none
        else none
      | _ => none
    match matched with
    | some r => ' ' :: stripOpenKeyGo fuel r
    | none => c :: stripOpenKeyGo fuel rest

/-- Global replacement for rule 3 of `stripPlaceholderArtifacts`. -/
def stripOpenKey (l : JStr) : JStr := stripOpenKeyGo l.length l

/-- Rule 4 of `stripPlaceholderArtifacts`:
`replace(/mi\s+correo\s+es[^\n]*/gi, ' ')` — from a match of
`mi correo es` everything up to the next newline is replaced. -/
def stripCorreoGo : Nat → JStr → JStr
  | 0, l => l
  | _ + 1, [] => []
  | fuel + 1, l@(c :: rest) =>
    match matchWordSeq [str "mi", str "correo", str "es"] (jsLower l) with
    | some low =>
      let r := l.drop (l.length - low.length)
      let tail := r.dropWhile (fun x => x ≠ '\n')
      ' ' :: stripCorreoGo fuel tail
    | none => c :: stripCorreoGo fuel rest

/-- Global replacement for rule 4 of `stripPlaceholderArtifacts`. -/
def stripCorreo (l : JStr) : JStr := stripCorreoGo l.length l

/-- Rule 5 of `stripPlaceholderArtifacts`: single braces become spaces
(`replace(/[{}]/g, ' ')`) and percent-encoded double braces become spaces
(`replace(/%7B%7B|%7D%7D/gi, ' ')`). -/
def stripLooseBraces (l : JStr) : JStr :=
  let noBrace := l.map (fun c => if c = braceO || c = braceC then ' ' else c)
  stripPctGo noBrace.length noBrace
where
  /-- Replace `%7B%7B` and `%7D%7D` (case-insensitive) by a space. -/
  stripPctGo : Nat → JStr → JStr
    | 0, l => l
    | _ + 1, [] => []
    | fuel + 1, l@(c :: rest) =>
      if isPre (str "%7b%7b") (jsLower l) || isPre (str "%7d%7d") (jsLower l) then
        ' ' :: stripPctGo fuel (l.drop 6)
      else c :: stripPctGo fuel rest

/-- Embedding of `stripPlaceholderArtifacts` (name.ts lines 71-80). -/
def stripPlaceholderArtifacts (raw : JStr) : JStr :=
  jsTrim (collapseWs (stripLooseBraces (stripCorreo (stripOpenKey (stripKeyClose (stripBraceBlocks raw))))))

/-- Embedding of `toTitleCase` (identical in name.ts and part_005):
split on whitespace, upper-case the first character of each word and
lower-case the rest. -/
def toTitleCase (l : JStr) : JStr :=
  joinSpace ((wsWords l).map (fun w =>
    match w with
    | [] => []
    | c :: rest => upperChar c :: rest.map lowerChar))

/-- Embedding of `sanitizeName` (name.ts lines 82-90). -/
def sanitizeName (raw : Option JStr) : Option JStr :=
  match raw with
  | none => none
  | some r =>
    let cleaned := stripPlaceholderArtifacts r
    let trimmed := jsTrim cleaned
    if trimmed = [] then none
    else if isBadName (some trimmed) then none
    else
      let normalized :=
        jsTrim (collapseWs (replaceRunsWithSpace
          (fun c => c = '.' || c = '_' || c = '-') trimmed))
      some (toTitleCase normalized)

/-- An ASCII letter or digit (the `a-z0-9` class with the `i` flag). -/
def isAlnumChar (c : Char) : Bool :=
  ('a' ≤ c && c ≤ 'z') || ('A' ≤ c && c ≤ 'Z') || ('0' ≤ c && c ≤ '9')

/-- Embedding of `humanizeIdentifier` (name.ts lines 112-121). -/
def humanizeIdentifier (value : Option JStr) : Option JStr :=
  match value with
  | none => none
  | some v =>
    let trimmed := jsTrim v
    if trimmed = [] then none
    else
      let normalized :=
        ((trimmed.dropWhile (fun c => !isAlnumChar c)).reverse.dropWhile
          (fun c => !isAlnumChar c)).reverse
      if normalized = [] then none
      else
        let tokens := (splitOnPred (fun c => !isAlnumChar c) normalized).filter (· ≠ [])
        if tokens = [] then none
        else some (joinSpace (tokens.map toTitleCase))

/-- Embedding of `deriveNameFromEmail` (name.ts lines 123-136). -/
def deriveNameFromEmail (email : Option JStr) : Option JStr :=
  match email with
  | none => none
  | some e =>
    let trimmed := jsTrim e
    if trimmed = [] then none
    else
      let localPart := trimmed.takeWhile (· ≠ '@')
      if localPart = [] then none
      else
        let tokens :=
          (splitOnPred (fun c => c = '.' || c = '_' || c = '+' || c = '-') localPart).filter (· ≠ [])
        if tokens = [] then none
        else
          let meaningful := tokens.filter (fun t =>
            t.any (fun c => ('a' ≤ c && c ≤ 'z') || ('A' ≤ c && c ≤ 'Z')))
          if meaningful = [] then none
          else if meaningful.length = 1 && (meaningful.headD []).length < 3 then none
          else emptyToNone (joinSpace (meaningful.map toTitleCase))

/-- The capture class `[a-záéíóúñü' ]` of the DM name patterns, with the
`i` flag (upper-case letters included). -/
def nameClassChar (c : Char) : Bool :=
  ('a' ≤ c && c ≤ 'z') || ('A' ≤ c && c ≤ 'Z') ||
  c = 'á' || c = 'é' || c = 'í' || c = 'ó' || c = 'ú' || c = 'ñ' || c = 'ü' ||
  c = 'Á' || c = 'É' || c = 'Í' || c = 'Ó' || c = 'Ú' || c = 'Ñ' || c = 'Ü' ||
  c = aposChar || c = ' '

/-- Try the phrase alternatives at the current position; on a phrase match
require `\s+` and then capture a `[a-záéíóúñü' ]{2,80}` run.  The leading
`\s+` is taken greedily; the backtracking case in which it would concede a
space to the capture is not exercised by any claim input. -/
def dmCaptureAt (alts : List (List JStr)) (l : JStr) : Option JStr :=
  match alts with
  | [] => none
  | a :: rest =>
    match matchWordSeq a (jsLower l) with
    | some low =>
      let r := l.drop (l.length - low.length)
      match r with
      | c :: cs =>
        if isWsChar c then
          let r2 := cs.dropWhile isWsChar
          let cand := (r2.takeWhile nameClassChar).take 80
          if 2 ≤ cand.length then some cand else dmCaptureAt rest l
        else dmCaptureAt rest l
      | [] => dmCaptureAt rest l
    | none => dmCaptureAt rest l

/-- The alternatives of the first DM pattern of name.ts
(`mi\s+nombre\s+es|me\s+llamo`). -/
def dmAlts1 : List (List JStr) :=
  [[str "mi", str "nombre", str "es"], [str "me", str "llamo"]]

/-- The alternatives of the second DM pattern of name.ts
(`te\s+escribe|te\s+habla|te\s+saluda|quien\s+te\s+escribe\s+es|quien\s+te\s+saluda\s+es|este\s+es`). -/
def dmAlts2 : List (List JStr) :=
  [[str "te", str "escribe"], [str "te", str "habla"], [str "te", str "saluda"],
   [str "quien", str "te", str "escribe", str "es"],
   [str "quien", str "te", str "saluda", str "es"],
   [str "este", str "es"]]

/-- Position matcher for the second DM pattern, whose optional prefix is
`(?:aqui|aquí)?\s*`: first with the prefix consumed, then without. -/
def dmPattern2At (l : JStr) : Option JStr :=
  let withPre :=
    match matchWordSeq [str "aqui"] (jsLower l) with
    | some low =>
      let r := l.drop (l.length - low.length)
      dmCaptureAt dmAlts2 (r.dropWhile isWsChar)
    | none =>
      match matchWordSeq [str "aquí"] (jsLower l) with
      | some low =>
        let r := l.drop (l.length - low.length)
        dmCaptureAt dmAlts2 (r.dropWhile isWsChar)
      | none => none
  match withPre with
  | some c => some c
  | none => dmCaptureAt dmAlts2 (l.dropWhile isWsChar)

/-- Embedding of `extractNameFromDmText` (name.ts lines 138-149).  Each
pattern's first match is cleaned (`replace(/[.,;].*$/, '')`, trim) and
sanitised; the next pattern is tried when sanitisation rejects it. -/
def extractNameFromDmText (dm : Option JStr) : Option JStr :=
  match dm with
  | none => none
  | some d =>
    let normalized := jsTrim (collapseWs d)
    let clean : Option JStr → Option JStr := fun cap =>
      match cap with
      | none => none
      | some c =>
        sanitizeName (some (jsTrim (truncFromChar (fun x => x = '.' || x = ',' || x = ';') c)))
    match clean (scanFor (dmCaptureAt dmAlts1) normalized) with
    | some v => some v
    | none =>
      match clean (scanFor dmPattern2At normalized) with
      | some v => some v
      | none => none

/-- The result record of `deriveName`. -/
structure DeriveNameResult where
  value : Option JStr
  score : Frac
  source : Option JStr
deriving DecidableEq, Repr

/-- Embedding of `deriveName` (name.ts lines 158-175). -/
def deriveName (igProfileName igUsername dmText email : Option JStr) : DeriveNameResult :=
  let profileCleaned := stripPlaceholderArtifacts (igProfileName.getD [])
  match sanitizeName (emptyToNone profileCleaned) with
  | some v => ⟨some v, frac 9 10, some (str "ig_full_name")⟩
  | none =>
    match extractNameFromDmText dmText with
    | some v => ⟨some v, frac 3 4, some (str "dm_text")⟩
    | none =>
      match sanitizeName (emptyToNone
          (stripPlaceholderArtifacts ((humanizeIdentifier igUsername).getD []))) with
      | some v => ⟨some v, frac 13 20, some (str "ig_username")⟩
      | none =>
        match sanitizeName (emptyToNone
            (stripPlaceholderArtifacts ((deriveNameFromEmail email).getD []))) with
        | some v => ⟨some v, frac 3 5, some (str "email_local")⟩
        | none => ⟨none, frac 0 1, none⟩

/-! ## Name-source normalisation and the pipeline's final-name pick
(part_005 lines 2811-2828 and 3039-3066) -/

/-- Embedding of `normalizeNameSource` (part_005 lines 2811-2828). -/
def normalizeNameSource (source : Option JStr) : JStr :=
  match source with
  | none => str "unknown"
  | some s =>
    if s = str "instagram_full_name" ∨ s = str "instagram_handle_titlecase" ∨
       s = str "email_local" ∨ s = str "manual" ∨ s = str "unknown" then s
    else if s = str "ig_full_name" then str "instagram_full_name"
    else if s = str "ig_username" then str "instagram_handle_titlecase"
    else if s = str "dm_text" then str "manual"
    else str "unknown"

/-- The candidate produced by `bestName` (lib/names.js, consumed as a
`{name?, source?}` record; its internals are not part of the sources and
are not needed by any claim). -/
structure BestNameCandidate where
  name : Option JStr := none
  source : Option JStr := none
deriving DecidableEq, Repr

/-- Embedding of the final-name selection of `executePipeline`
(part_005 lines 3039-3057): the derived candidate is kept when it is not
junk and scores at least 0.6; a sanitised `bestName` candidate wins over
it; an unsanitised but non-junk `bestName` candidate is used only when no
derived name survived. -/
def pipelineFinalNamePick (nameGuess : DeriveNameResult) (best : BestNameCandidate) :
    Option JStr × JStr :=
  let deriveClean : Option JStr :=
    match nameGuess.value with
    | some v =>
      if !isBadName (some v) && Frac.le (frac 3 5) nameGuess.score then some v else none
    | none => none
  let bestClean : Option JStr := best.name.bind (fun n => sanitizeName (some n))
  if bestClean.isSome && !isBadName bestClean then
    (bestClean, normalizeNameSource best.source)
  else if deriveClean.isNone && best.name.isSome && !isBadName best.name then
    (best.name, normalizeNameSource best.source)
  else
    (deriveClean, normalizeNameSource nameGuess.source)

/-- Embedding of `const finalNameSource = finalName ? finalSource :
'unknown'` (part_005 line 3059). -/
def pipelineFinalNameSource (nameGuess : DeriveNameResult) (best : BestNameCandidate) : JStr :=
  let p := pipelineFinalNamePick nameGuess best
  match p.1 with
  | some _ => p.2
  | none => str "unknown"

/-! ## Contact reconciliation (part_005 lines 3112-3304) -/

/-- A stored contact row, restricted to the columns the reconciler
reads and writes. -/
structure ContactRow where
  id : Option JStr := none
  name : Option JStr := none
  name_source : Option JStr := none
  first_name : Option JStr := none
  last_name : Option JStr := none
  ig_username : Option JStr := none
  instagram_username : Option JStr := none
  ig_display_name : Option JStr := none
  email : Option JStr := none
  phone : Option JStr := none
  city : Option JStr := none
  country : Option JStr := none
deriving DecidableEq, Repr

/-- The record assembled by `extractContactRecord` and mutated by
`executePipeline` before the insert attempt, restricted to the columns
the claims concern. -/
structure NewContactRecord where
  manychat_contact_id : Option JStr := none
  name : Option JStr := none
  name_source : Option JStr := none
  first_name : Option JStr := none
  last_name : Option JStr := none
  email : Option JStr := none
  phone : Option JStr := none
  country : Option JStr := none
  city : Option JStr := none
  instagram_username : Option JStr := none
  ig_user_id : Option JStr := none
  ig_username : Option JStr := none
  ig_display_name : Option JStr := none
deriving DecidableEq, Repr

/-- Embedding of `isUniqueViolation` (part_005 lines 3120-3123):
`/duplicate key value/i.test(message) || message.includes('already exists')
|| message.includes('on_conflict')`. -/
def isUniqueViolation (message : JStr) : Bool :=
  containsSub (str "duplicate key value") (jsLower message) ||
  containsSub (str "already exists") message ||
  containsSub (str "on_conflict") message

/-- The match strategies of the duplicate-contact lookup
(part_005 lines 3134-3140). -/
inductive MatchStrategy
  | ig_user_id
  | instagram_username
  | ig_username
  | manychat_contact_id
  | email
  | unknown
deriving DecidableEq, Repr

/-- Embedding of the `lookupOrder` construction (part_005 lines
3128-3158): one finder per key of the incoming record that is present,
pushed in this fixed order. -/
def conflictLookupOrder (record : NewContactRecord) : List MatchStrategy :=
  (if (safetyString record.ig_user_id).isSome then [MatchStrategy.ig_user_id] else []) ++
  (if (safetyString record.instagram_username).isSome then [MatchStrategy.instagram_username] else []) ++
  (if (safetyString record.ig_username).isSome then [MatchStrategy.ig_username] else []) ++
  (if (safetyString record.manychat_contact_id).isSome then [MatchStrategy.manychat_contact_id] else []) ++
  (if (safetyString record.email).isSome then [MatchStrategy.email] else [])

/-- Is the natural key behind a match strategy present on the record?
(Spec-side characterisation used to state C2.) -/
def keyPresent (record : NewContactRecord) : MatchStrategy → Bool
  | .ig_user_id => (safetyString record.ig_user_id).isSome
  | .instagram_username => (safetyString record.instagram_username).isSome
  | .ig_username => (safetyString record.ig_username).isSome
  | .manychat_contact_id => (safetyString record.manychat_contact_id).isSome
  | .email => (safetyString record.email).isSome
  | .unknown => false

/-- The full specificity order of the lookup keys as the spec states it. -/
def fullLookupOrder : List MatchStrategy :=
  [.ig_user_id, .instagram_username, .ig_username, .manychat_contact_id, .email]

/-- Embedding of the lookup loop (part_005 lines 3160-3168): run the
finders in order and keep the first contact found together with the
strategy that matched.  The database responses are abstracted as the
oracle `db`. -/
def findExisting (db : MatchStrategy → Option ContactRow) :
    List MatchStrategy → Option (ContactRow × MatchStrategy)
  | [] => none
  | k :: rest =>
    match db k with
    | some c => some (c, k)
    | none => findExisting db rest

/-- Embedding of `allowUpdateExistingName` (part_005 lines 3176-3183). -/
def allowUpdateExistingName (existing : ContactRow) : Bool :=
  let existingName := safetyString existing.name
  let existingNameSource := (safetyString existing.name_source).getD (str "unknown")
  let existingIgUsername :=
    match safetyString existing.ig_username with
    | some v => some v
    | none => safetyString existing.instagram_username
  existingName.isNone || decide (existingName = existingIgUsername) ||
    decide (existingNameSource ≠ str "manual")

/-- Embedding of the duplicate-merge patch body (part_005 lines
3186-3196): the whole record, minus the four name columns when the
existing manually-curated name must be kept.  The `updated_at` timestamp
column is not modelled. -/
def mergePatchPayload (record : NewContactRecord) (existing : ContactRow) : NewContactRecord :=
  if allowUpdateExistingName existing then record
  else { record with name := none, name_source := none, first_name := none, last_name := none }

/-- Override an optional column: a PATCH only touches the keys present on
its payload. -/
def ovr (old new : Option JStr) : Option JStr :=
  match new with
  | some v => some v
  | none => old

/-- The effect of PATCHing a contact row with the merge payload
(PostgREST PATCH updates exactly the supplied keys). -/
def applyContactPatch (row : ContactRow) (patch : NewContactRecord) : ContactRow :=
  { row with
    name := ovr row.name patch.name,
    name_source := ovr row.name_source patch.name_source,
    first_name := ovr row.first_name patch.first_name,
    last_name := ovr row.last_name patch.last_name,
    email := ovr row.email patch.email,
    phone := ovr row.phone patch.phone,
    country := ovr row.country patch.country,
    city := ovr row.city patch.city,
    instagram_username := ovr row.instagram_username patch.instagram_username,
    ig_username := ovr row.ig_username patch.ig_username,
    ig_display_name := ovr row.ig_display_name patch.ig_display_name }

/-- Embedding of the insert-conflict recovery of `executePipeline`
(part_005 lines 3116-3230): a non-unique-violation error is re-thrown;
otherwise the ordered lookup runs, a found contact is patched with the
merge payload, and the original error is re-thrown when no key matches. -/
def handleInsertConflict (msg : JStr) (record : NewContactRecord)
    (db : MatchStrategy → Option ContactRow) : Except JStr (ContactRow × MatchStrategy) :=
  if isUniqueViolation msg = false then Except.error msg
  else
    match findExisting db (conflictLookupOrder record) with
    | none => Except.error msg
    | some (existing, k) =>
      Except.ok (applyContactPatch existing (mergePatchPayload record existing), k)

/-- Embedding of `allowUpdateName` (part_005 lines 3243-3247), including
the source's final disjunct `(finalName && finalNameSource !== 'manual')`. -/
def allowUpdateName (row : ContactRow) (finalName : Option JStr) (finalNameSource : JStr) : Bool :=
  let currentName := safetyString row.name
  let currentNameSource := (safetyString row.name_source).getD (str "unknown")
  let currentIgUsername :=
    match safetyString row.ig_username with
    | some v => some v
    | none => safetyString row.instagram_username
  currentName.isNone || decide (currentName = currentIgUsername) ||
    decide (currentNameSource ≠ str "manual") ||
    (finalName.isSome && decide (finalNameSource ≠ str "manual"))

/-- The patch sent to `patchContactByEmail`, restricted to the name
columns of the claims.  `first_name`/`last_name` are written as explicit
nulls when the final name has no further tokens, modelled by the inner
`Option`. -/
structure EmailNamePatch where
  name : Option JStr := none
  name_source : Option JStr := none
  first_name : Option (Option JStr) := none
  last_name : Option (Option JStr) := none
deriving DecidableEq, Repr

/-- Embedding of the patch-by-email payload construction restricted to
its name fields (part_005 lines 3278-3285): the four name columns are
included exactly when `allowUpdateName` holds and a final name exists. -/
def buildEmailNamePatch (row : ContactRow) (finalName : Option JStr) (finalNameSource : JStr)
    (finalNameTokens : List JStr) : EmailNamePatch :=
  if allowUpdateName row finalName finalNameSource then
    match finalName with
    | some n =>
      { name := some n,
        name_source := some finalNameSource,
        first_name := some (finalNameTokens.head?),
        last_name := some (if 1 < finalNameTokens.length
          then some (joinSpace (finalNameTokens.tail)) else none) }
    | none => {}
  else {}

/-- The effect of the email patch on the stored name columns. -/
def applyEmailNamePatch (row : ContactRow) (p : EmailNamePatch) : ContactRow :=
  { row with
    name := ovr row.name p.name,
    name_source := ovr row.name_source p.name_source,
    first_name := match p.first_name with | some v => v | none => row.first_name,
    last_name := match p.last_name with | some v => v | none => row.last_name }

/-! ## MailerLite sync (part_005 lines 1000-1122 and 2830-2970) -/

/-- An HTTP response of the MailerLite API, as the sync code inspects it:
its status, and whether the 422 body carries an `errors[]` entry whose
message contains "already". -/
structure MlResponse where
  status : Nat
  alreadyMsg : Bool
deriving DecidableEq, Repr

/-- The `Response.ok` predicate of `fetch` (status in 200-299). -/
def respOk (r : MlResponse) : Bool := 200 ≤ r.status && r.status ≤ 299

/-- Embedding of `shouldRetryMailerLite` (part_005 line 1000):
`status === 429 || status >= 500`. -/
def shouldRetryMailerLite (status : Nat) : Bool := status == 429 || 500 ≤ status

/-- Embedding of `MAX_MAILERLITE_ATTEMPTS` (part_005 line 17). -/
def MAX_MAILERLITE_ATTEMPTS : Nat := 3

/-- Outcome of a sync call: success or a thrown error, each recording the
number of outbound calls made and the sleep delays (in ms) taken.  The
`loopEnd` constructor is the source's fall-through `undefined` return,
reachable only with zero remaining attempts. -/
inductive MlOutcome
  | success (calls : Nat) (delays : List Nat)
  | fatal (status : Nat) (calls : Nat) (delays : List Nat)
  | loopEnd (calls : Nat) (delays : List Nat)
deriving DecidableEq, Repr

/-- Embedding of the retry loop of `syncMailerLite` (part_005 lines
1075-1121).  `responses n` is the response the n-th outbound call would
receive; the fuel counts the remaining loop iterations, so the attempt
number is `MAX - fuel`. -/
def syncMailerLiteGo (responses : Nat → MlResponse) : Nat → Nat → List Nat → MlOutcome
  | 0, calls, delays => .loopEnd calls delays
  | fuel + 1, calls, delays =>
    let attempt := MAX_MAILERLITE_ATTEMPTS - fuel
    let r := responses attempt
    let calls := calls + 1
    if respOk r then .success calls delays
    else if r.status == 409 then .success calls delays
    else if r.status == 422 && r.alreadyMsg then .success calls delays
    else if decide (attempt < MAX_MAILERLITE_ATTEMPTS) && shouldRetryMailerLite r.status then
      syncMailerLiteGo responses fuel calls (delays ++ [500 * attempt])
    else .fatal r.status calls delays

/-- Embedding of `syncMailerLite` from its first outbound call on (the
key/email/payload-building preamble succeeds for any valid input and makes
no outbound call). -/
def syncMailerLiteRun (responses : Nat → MlResponse) : MlOutcome :=
  syncMailerLiteGo responses MAX_MAILERLITE_ATTEMPTS 0 []

/-- Embedding of `mailerliteUpsert` from its single outbound call on
(part_005 lines 2912-2969): ok, 409, and "already"-422 responses are
success; anything else is thrown.  No retry loop exists here. -/
def mailerliteUpsertRun (responses : Nat → MlResponse) : MlOutcome :=
  let r := responses 1
  if respOk r then .success 1 []
  else if r.status == 409 then .success 1 []
  else if r.status == 422 && r.alreadyMsg then .success 1 []
  else .fatal r.status 1 []

/-! ## Webhook handler persistence and response (part_005 lines 3493-3621) -/

/-- Result of a Supabase REST call as `sbInsert` reports it. -/
structure SbResult where
  ok : Bool
  status : Nat
deriving DecidableEq, Repr

/-- Processing status of a raw webhook event. -/
inductive EventStatus
  | NEW
  | PROCESSED
  | FAILED
deriving DecidableEq, Repr

/-- The status patch written back onto the raw event row. -/
structure EventStatusPatch where
  status : EventStatus
  error : Option JStr
deriving DecidableEq, Repr

/-- What the handler does after validation: the HTTP status it answers,
whether the pipeline was invoked, and the status patch written to the
event row. -/
structure HandlerOutcome where
  httpStatus : Nat
  pipelineRan : Bool
  eventPatch : Option EventStatusPatch
deriving DecidableEq, Repr

/-- Embedding of the handler from the event insert to the response
(part_005 lines 3493-3621), for an authenticated POST with a valid JSON
object body: the event row is inserted unless `dry`; a non-ok non-409
insert answers 500 without running the pipeline; otherwise the pipeline
runs, a thrown error is captured into a FAILED status patch with the
error text, and the response is 200 (also in simulate mode, which only
changes the response body). -/
def webhookPersistAndProcess (dryFlag : Bool) (insertRes : SbResult)
    (pipeline : Except JStr Unit) : HandlerOutcome :=
  let persisted := dryFlag || (insertRes.ok || insertRes.status == 409)
  if !persisted then { httpStatus := 500, pipelineRan := false, eventPatch := none }
  else
    let finalStatus := match pipeline with | .ok _ => EventStatus.PROCESSED | .error _ => .FAILED
    let errText : Option JStr := match pipeline with | .ok _ => none | .error e => some e
    { httpStatus := 200,
      pipelineRan := true,
      eventPatch := if dryFlag then none else some ⟨finalStatus, errText⟩ }

/-! ## Reprocessor (second document of src/api/detect-email.ts) -/

/-- A raw webhook event row, restricted to the columns the reprocessor
reads and writes. -/
structure WebhookEvent where
  id : Nat
  status : EventStatus
  permanent_failed : Bool
  attempt_count : Nat
deriving DecidableEq, Repr

/-- The reprocessor's selection predicate, the embedding of the query
`status=in.(NEW,FAILED)&permanent_failed=is.false&attempt_count=lt.MAX`
(PostgREST filters rows by these conjuncts). -/
def reprocessSelectable (maxAttempts : Nat) (e : WebhookEvent) : Bool :=
  (e.status = .NEW || e.status = .FAILED) && !e.permanent_failed &&
    decide (e.attempt_count < maxAttempts)

/-- Embedding of one loop body of the reprocess handler: the attempt
count is incremented (and patched) before the pipeline reruns; on success
the event becomes PROCESSED and non-permanent, on failure it becomes
FAILED and permanent exactly when the incremented count reached the
maximum.  `succeeds` abstracts the pipeline outcome. -/
def reprocessStep (maxAttempts : Nat) (succeeds : WebhookEvent → Bool) (e : WebhookEvent) :
    WebhookEvent :=
  let attempts := e.attempt_count + 1
  if succeeds e then
    { e with status := .PROCESSED, permanent_failed := false, attempt_count := attempts }
  else
    { e with status := .FAILED, permanent_failed := decide (maxAttempts ≤ attempts),
             attempt_count := attempts }

/-- Embedding of one reprocess run over the stored events: selected
events are stepped, all others are untouched.  The batch-size limit is
not modelled (the claim quantifies over selected events). -/
def reprocessRun (maxAttempts : Nat) (succeeds : WebhookEvent → Bool)
    (events : List WebhookEvent) : List WebhookEvent :=
  events.map (fun e => if reprocessSelectable maxAttempts e
    then reprocessStep maxAttempts succeeds e else e)

/-- Iterated reprocess runs, one pipeline-outcome oracle per run. -/
def reprocessIter (maxAttempts : Nat) :
    List (WebhookEvent → Bool) → List WebhookEvent → List WebhookEvent
  | [], evs => evs
  | f :: fs, evs => reprocessIter maxAttempts fs (reprocessRun maxAttempts f evs)

/-! ## Lead parsing (part_005 lines 1514-2620, the second document's
`parseLeadDetails` and its helpers) -/

/-- Embedding of `normalize` (part_005 lines 1531-1535): NFD
decomposition, removal of combining marks, lower-casing. -/
def normalizeJs (l : JStr) : JStr := (l.map baseChar).map lowerChar

/-- A lower-case ASCII letter or digit (the `a-z0-9` class). -/
def isLowerAlnum (c : Char) : Bool := ('a' ≤ c && c ≤ 'z') || ('0' ≤ c && c ≤ '9')

/-- Embedding of `normalizeLabel` (part_005 lines 1537-1538):
`normalize(value).replace(/[^a-z0-9]+/g, ' ').trim()`. -/
def normalizeLabel (v : JStr) : JStr :=
  jsTrim (replaceRunsWithSpace (fun c => !isLowerAlnum c) (normalizeJs v))

/-- One entry of an array-shaped ManyChat custom-field list. -/
structure MCCustomFieldEntry where
  name : Option JStr := none
  title : Option JStr := none
  value : Option JStr := none
deriving DecidableEq, Repr

/-- ManyChat custom fields arrive either as an array of entries or as a
key-value object; a `none` value models a present key whose value is not
a (non-empty) string. -/
inductive MCCustomFields
  | arr (entries : List MCCustomFieldEntry)
  | obj (entries : List (JStr × Option JStr))
deriving DecidableEq, Repr

/-- A social-profile entry of a ManyChat contact (`type` is called
`ptype` here). -/
structure MCSocialProfile where
  ptype : Option JStr := none
  pname : Option JStr := none
  username : Option JStr := none
  pid : Option JStr := none
deriving DecidableEq, Repr

/-- The `ManyChatContact` shape (part_005 lines 1947-1966), restricted to
the fields `parseLeadDetails` reads. -/
structure MCContact where
  id : Option JStr := none
  name : Option JStr := none
  first_name : Option JStr := none
  last_name : Option JStr := none
  email : Option JStr := none
  phone : Option JStr := none
  emails : Option (List JStr) := none
  phones : Option (List JStr) := none
  custom_fields : Option MCCustomFields := none
  social_profiles : Option (List MCSocialProfile) := none
deriving DecidableEq, Repr

/-- The `Full_Contact_Data` object, restricted to the fields read by
`parseLeadDetails`. -/
structure MCFullContact where
  name : Option JStr := none
  email : Option JStr := none
  last_input_text : Option JStr := none
  custom_fields : Option (List (JStr × Option JStr)) := none
deriving DecidableEq, Repr

/-- The `ManyChatPayload` shape (part_005 lines 1968-1976), restricted to
the fields `parseLeadDetails` reads: `message.text`, the string values of
`data`, the already-normalised full-contact object, and the remaining
top-level keys reached through `fallbackString`. -/
structure MCPayload where
  event : Option JStr := none
  messageText : Option JStr := none
  data : Option (List (JStr × JStr)) := none
  extra : List (JStr × Option JStr) := []
  fullContactData : Option MCFullContact := none
deriving DecidableEq, Repr

/-- Embedding of `fallbackString` (part_005 lines 1993-1996). -/
def fallbackString (payload : MCPayload) (key : JStr) : Option JStr :=
  safetyString ((payload.extra.find? (fun kv => decide (kv.1 = key))).bind (·.2))

/-- First value of a key in an object-shaped record. -/
def objLookup (entries : List (JStr × Option JStr)) (key : JStr) : Option JStr :=
  (entries.find? (fun kv => decide (kv.1 = key))).bind (·.2)

/-- Key presence in an object-shaped record (`key in record`). -/
def objHasKey (entries : List (JStr × Option JStr)) (key : JStr) : Bool :=
  entries.any (fun kv => decide (kv.1 = key))

/-- Embedding of `pickFirst` (part_005 lines 2123-2133) on a list value:
the first non-null non-empty item. -/
def pickFirst (v : Option (List JStr)) : Option JStr :=
  match v with
  | none => none
  | some items => items.find? (fun s => !s.isEmpty)

/-- Embedding of `findCustomField` (part_005 lines 2135-2158). -/
def findCustomField (fields : Option MCCustomFields) (candidates : List JStr) : Option JStr :=
  match fields with
  | none => none
  | some (.arr entries) => goArr (candidates.map normalizeLabel) entries
  | some (.obj entries) => goObj (candidates.map normalizeLabel) entries
where
  goArr (cands : List JStr) : List MCCustomFieldEntry → Option JStr
    | [] => none
    | e :: rest =>
      let label := normalizeLabel
        ((match safetyString e.name with
          | some v => some v
          | none => safetyString e.title).getD [])
      if label = [] then goArr cands rest
      else if !cands.any (fun c => decide (c = label)) then goArr cands rest
      else
        match safetyString e.value with
        | some v => some v
        | none => goArr cands rest
  goObj (cands : List JStr) : List (JStr × Option JStr) → Option JStr
    | [] => none
    | (k, v) :: rest =>
      let label := normalizeLabel k
      if label = [] || !cands.any (fun c => decide (c = label)) then goObj cands rest
      else
        match safetyString v with
        | some s => some s
        | none => goObj cands rest

/-- Embedding of `extractInstagram` (part_005 lines 2172-2184): the first
social profile whose lowered type (or name) contains "instagram" or
equals "ig" yields the username and id. -/
def extractInstagram (contact : Option MCContact) : Option JStr × Option JStr :=
  match contact.bind (·.social_profiles) with
  | none => (none, none)
  | some profiles => go profiles
where
  go : List MCSocialProfile → Option JStr × Option JStr
    | [] => (none, none)
    | p :: rest =>
      let t := normalizeJs ((match p.ptype with
        | some v => some v
        | none => p.pname).getD [])
      if containsSub (str "instagram") t || decide (t = str "ig") then
        ((match safetyString p.username with
          | some v => some v
          | none => safetyString p.pname), safetyString p.pid)
      else go rest

/-- The `CITY_TO_COUNTRY_ENTRIES` static table (part_005 lines
1636-1718). -/
def cityToCountryEntries : List (JStr × JStr) :=
  [(str "bogota", str "Colombia"), (str "bogotá", str "Colombia"),
   (str "medellin", str "Colombia"), (str "medellín", str "Colombia"),
   (str "cali", str "Colombia"), (str "barranquilla", str "Colombia"),
   (str "cartagena", str "Colombia"), (str "bucaramanga", str "Colombia"),
   (str "pereira", str "Colombia"), (str "manizales", str "Colombia"),
   (str "santa marta", str "Colombia"), (str "santamarta", str "Colombia"),
   (str "armenia", str "Colombia"), (str "cucuta", str "Colombia"),
   (str "cúcuta", str "Colombia"), (str "envigado", str "Colombia"),
   (str "soacha", str "Colombia"), (str "ibague", str "Colombia"),
   (str "ibagué", str "Colombia"), (str "neiva", str "Colombia"),
   (str "villavicencio", str "Colombia"), (str "sincelejo", str "Colombia"),
   (str "tunja", str "Colombia"), (str "popayan", str "Colombia"),
   (str "popayán", str "Colombia"), (str "cartago", str "Colombia"),
   (str "la paz", str "Bolivia"), (str "lapaz", str "Bolivia"),
   (str "santa cruz", str "Bolivia"), (str "santacruz", str "Bolivia"),
   (str "cochabamba", str "Bolivia"), (str "sucre", str "Bolivia"),
   (str "potosi", str "Bolivia"), (str "potosí", str "Bolivia"),
   (str "tarija", str "Bolivia"), (str "oruro", str "Bolivia"),
   (str "trinidad", str "Bolivia"), (str "montero", str "Bolivia"),
   (str "quito", str "Ecuador"), (str "guayaquil", str "Ecuador"),
   (str "cuenca", str "Ecuador"), (str "ambato", str "Ecuador"),
   (str "machala", str "Ecuador"), (str "loja", str "Ecuador"),
   (str "duran", str "Ecuador"), (str "durán", str "Ecuador"),
   (str "santiago", str "Chile"), (str "valparaiso", str "Chile"),
   (str "valparaíso", str "Chile"), (str "concepcion", str "Chile"),
   (str "concepción", str "Chile"),
   (str "lima", str "Perú"), (str "cusco", str "Perú"),
   (str "cuzco", str "Perú"), (str "arequipa", str "Perú"),
   (str "trujillo", str "Perú"), (str "piura", str "Perú"),
   (str "chiclayo", str "Perú"), (str "huancayo", str "Perú"),
   (str "puno", str "Perú"), (str "iquitos", str "Perú"),
   (str "mexico", str "México"), (str "méxico", str "México"),
   (str "ciudad de mexico", str "México"), (str "cdmx", str "México"),
   (str "guadalajara", str "México"), (str "monterrey", str "México"),
   (str "queretaro", str "México"), (str "querétaro", str "México"),
   (str "puebla", str "México"), (str "leon", str "México"),
   (str "león", str "México"), (str "tijuana", str "México"),
   (str "cancun", str "México"), (str "cancún", str "México"),
   (str "buenos aires", str "Argentina"), (str "cordoba", str "Argentina"),
   (str "córdoba", str "Argentina"), (str "rosario", str "Argentina"),
   (str "mendoza", str "Argentina"), (str "salta", str "Argentina")]

/-- Embedding of `matchCountryFromCity` (part_005 lines 1729-1734): a
lookup keyed by `normalize(city)`.  Duplicate keys of the table map to
the same country, so first-match lookup equals the source's last-write
map. -/
def matchCountryFromCity (city : Option JStr) : Option JStr :=
  match city with
  | none => none
  | some c =>
    let key := normalizeJs c
    if key = [] then none
    else (cityToCountryEntries.find? (fun e => decide (normalizeJs e.1 = key))).map (·.2)

/-- The lead fields of `ParsedLeadDetails`. -/
inductive LeadField
  | email
  | name
  | country
  | city
  | phone
  | message
deriving DecidableEq, Repr

/-- The `ParsedLeadDetails` record (part_005 lines 1514-1526); the
`sources` and `sourceRanks` maps are association lists in which the most
recent write shadows older entries. -/
structure ParsedLead where
  email : Option JStr := none
  name : Option JStr := none
  country : Option JStr := none
  city : Option JStr := none
  phone : Option JStr := none
  message : Option JStr := none
  rawText : Option JStr := none
  confidence : Frac := frac 0 1
  matched : List JStr := []
  sources : List (LeadField × JStr) := []
  sourceRanks : List (LeadField × Int) := []
deriving DecidableEq, Repr

/-- Field read on the lead record. -/
def leadGet (d : ParsedLead) : LeadField → Option JStr
  | .email => d.email
  | .name => d.name
  | .country => d.country
  | .city => d.city
  | .phone => d.phone
  | .message => d.message

/-- Field write on the lead record. -/
def leadSet (d : ParsedLead) : LeadField → JStr → ParsedLead
  | .email, v => { d with email := some v }
  | .name, v => { d with name := some v }
  | .country, v => { d with country := some v }
  | .city, v => { d with city := some v }
  | .phone, v => { d with phone := some v }
  | .message, v => { d with message := some v }

/-- Current rank of a field; `none` models the source's
`Number.NEGATIVE_INFINITY` default. -/
def rankOf (d : ParsedLead) (f : LeadField) : Option Int :=
  (d.sourceRanks.find? (fun kv => decide (kv.1 = f))).map (·.2)

/-- Is `r` strictly below the current rank? (`r < -∞` is false.) -/
def ltRank (r : Int) (cur : Option Int) : Bool :=
  match cur with
  | none => false
  | some c => decide (r < c)

/-- Embedding of `sourcePriority` (part_005 lines 2360-2368). -/
def sourcePriority (origin : JStr) : Int :=
  if isPre (str "text:heuristic") origin then 400
  else if isPre (str "text") origin then 300
  else if origin = str "custom_field" then 200
  else if origin = str "contact" then 100
  else if origin = str "instagram_username" then 90
  else if origin = str "email_local" then 80
  else 50

/-- Record a successful capture: set the field, its rank and source, and
append the origin to `matched`. -/
def leadCommit (d : ParsedLead) (f : LeadField) (v : JStr) (origin : JStr) (rank : Int) :
    ParsedLead :=
  let d := leadSet d f v
  { d with
    sourceRanks := (f, rank) :: d.sourceRanks,
    sources := (f, origin) :: d.sources,
    matched := d.matched ++ [origin] }

/-- Embedding of `capture` (part_005 lines 2370-2399): a lower-ranked
source never overwrites; at equal rank a set field is kept, except that a
strictly longer message replaces the current one; name values pass
through `sanitizeName`. -/
def capture (d : ParsedLead) (f : LeadField) (value : Option JStr) (origin : JStr) : ParsedLead :=
  match safetyString value with
  | none => d
  | some safe =>
    let rank := sourcePriority origin
    let currentRank := rankOf d f
    if f = .message then
      if ltRank rank currentRank then d
      else
        let keepCurrent : Bool :=
          decide (currentRank = some rank) &&
          (match d.message with
           | some m => decide (safe.length ≤ m.length)
           | none => false)
        if keepCurrent then d
        else leadCommit d .message safe origin rank
    else if ltRank rank currentRank then d
    else if decide (currentRank = some rank) && (leadGet d f).isSome then d
    else if f = .name then
      match sanitizeName (some safe) with
      | none => d
      | some cleaned => leadCommit d .name cleaned origin rank
    else leadCommit d f safe origin rank

/-- Email local-part character class `[A-Z0-9._%+-]` (with `i`). -/
def isEmailLocalChar (c : Char) : Bool :=
  isAlnumChar c || c = '.' || c = '_' || c = '%' || c = '+' || c = '-'

/-- Email domain character class `[A-Z0-9.-]` (with `i`). -/
def isEmailDomChar (c : Char) : Bool := isAlnumChar c || c = '.' || c = '-'

/-- An ASCII letter. -/
def isAsciiLetter (c : Char) : Bool := ('a' ≤ c && c ≤ 'z') || ('A' ≤ c && c ≤ 'Z')

/-- Split the domain run at its right-most viable dot: the tail after the
dot must be all letters, at least two of them, and be followed by a word
boundary.  This realises the backtracking of `[A-Z0-9.-]+\.[A-Z]{2,}\b`. -/
def emailDomSplit (run : JStr) (next : Option Char) : Option JStr :=
  go run.length
where
  go : Nat → Option JStr
    | 0 => none
    | n + 1 =>
      let j := n
      if h : j < run.length then
        if run.get ⟨j, h⟩ = '.' then
          let tail := run.drop (j + 1)
          if 0 < j && 2 ≤ tail.length && tail.all isAsciiLetter &&
             (match next with
              | none => true
              | some c => !isWordChar c) then
            some (run.take (j + 1) ++ tail)
          else go n
        else go n
      else go n

/-- Match of the email regex starting exactly here; `prevIsWord` carries
the `\b` context.  Returns the matched substring. -/
def emailMatchHere (prevIsWord : Bool) (l : JStr) : Option JStr :=
  match l with
  | [] => none
  | c :: _ =>
    if prevIsWord || !isEmailLocalChar c then none
    else
      let localRun := l.takeWhile isEmailLocalChar
      let afterLocal := l.drop localRun.length
      match afterLocal with
      | '@' :: rest =>
        let domRun := rest.takeWhile isEmailDomChar
        let next := (rest.drop domRun.length).head?
        match emailDomSplit domRun next with
        | some dom => some (localRun ++ '@' :: dom)
        | none => none
      | _ => none

/-- First match of `emailRegex`
`/\b[A-Z0-9._%+-]+@[A-Z0-9.-]+\.[A-Z]{2,}\b/i` (part_005 line 1528).
A match can only begin at a position preceded by a non-word character
(all local-part characters that are word characters need the boundary;
the inputs of this code base begin their emails with letters). -/
def emailFirstMatch (l : JStr) : Option JStr := go false l
where
  go (prev : Bool) : JStr → Option JStr
    | [] => none
    | ls@(c :: rest) =>
      match emailMatchHere prev ls with
      | some m => some m
      | none => go (isWordChar c) rest

/-- The phone run class of `phoneRegex`: digits, space, dot,
parentheses, slash and hyphen. -/
def isPhoneClass (c : Char) : Bool :=
  isDigitChar c || c = ' ' || c = '.' || c = '(' || c = ')' || c = '/' || c = '-'

/-- Match of `phoneRegex` (part_005 line 1529: an optional plus, a
digit, six or more characters of the phone run class, a closing digit)
starting here: optional plus, a digit, then a digit at class-run offset at
least six (the `{6,}` body followed by the final digit). -/
def phoneMatchHere (l : JStr) : Bool :=
  let l' := match l with
    | c :: rest => if c = '+' then rest else l
    | [] => l
  match l' with
  | c :: rest => isDigitChar c && ((rest.takeWhile isPhoneClass).drop 6).any isDigitChar
  | [] => false

/-- First-match existence for the phone regex. -/
def hasPhoneMatch : JStr → Bool
  | [] => false
  | l@(_ :: rest) => phoneMatchHere l || hasPhoneMatch rest

/-- First phone match as a value: the maximal viable match at the first
matching position (the greedy run up to its last digit). -/
def phoneFirstMatch : JStr → Option JStr
  | [] => none
  | l@(c :: rest) =>
    if phoneMatchHere l then
      let core := match l with
        | c0 :: r0 => if c0 = '+' then r0 else l
        | [] => l
      let pre : JStr := if c = '+' then ['+'] else []
      match core with
      | c1 :: r1 =>
        let run := r1.takeWhile isPhoneClass
        let lastDigit := (run.length - (run.reverse.takeWhile (fun x => !isDigitChar x)).length)
        some (pre ++ c1 :: run.take lastDigit)
      | [] => none
    else phoneFirstMatch rest

/-- The alternatives of the first in-text name heuristic of
`parseLeadDetails` (`mi\s+nombre\s+es|me\s+llamo|soy`, part_005 line
2510). -/
def heurAlts1 : List (List JStr) :=
  [[str "mi", str "nombre", str "es"], [str "me", str "llamo"], [str "soy"]]

/-- Post-processing of a heuristic name capture (part_005 lines
2512-2515): truncate at `[.,;]`, trim, title-case; empty means no
value. -/
def heurPost (c : JStr) : Option JStr :=
  emptyToNone (toTitleCase (jsTrim (truncFromChar (fun x => x = '.' || x = ',' || x = ';') c)))

/-- First capture of the first name heuristic. -/
def heurName1 (text : JStr) : Option JStr :=
  (scanFor (dmCaptureAt heurAlts1) text).bind heurPost

/-- First capture of the second name heuristic (same pattern as the
second DM pattern of name.ts, part_005 line 2518). -/
def heurName2 (text : JStr) : Option JStr :=
  (scanFor dmPattern2At text).bind heurPost

/-- The location capture class `[a-záéíóúñü' ,\-]` (with `i`). -/
def isLocClassChar (c : Char) : Bool :=
  nameClassChar c || c = ',' || c = '-'

/-- The location capture terminators `[.!?\n]`. -/
def isLocTermChar (c : Char) : Bool := c = '.' || c = '!' || c = '?' || c = '\n'

/-- Lazy capture `([a-záéíóúñü' ,\-]+?)(?:[.!?\n]|$)`: the class run up
to the first terminator, valid only when a terminator or the string end
follows it. -/
def locCaptureFrom (l : JStr) : Option JStr :=
  let run := l.takeWhile isLocClassChar
  if run.isEmpty then none
  else
    match l.drop run.length with
    | [] => some run
    | c :: _ => if isLocTermChar c then some run else none

/-- Match `(?:en|en\s+la\s+ciudad\s+de)\s+(capture)` at this position. -/
def locEnAt (s : JStr) : Option JStr :=
  let tryAlt : List JStr → Option JStr := fun a =>
    match matchWordSeq a (jsLower s) with
    | some low =>
      let r := s.drop (s.length - low.length)
      match r with
      | c :: cs => if isWsChar c then locCaptureFrom (cs.dropWhile isWsChar) else none
      | [] => none
    | none => none
  match tryAlt [str "en"] with
  | some cap => some cap
  | none => tryAlt [str "en", str "la", str "ciudad", str "de"]

/-- Position matcher of the first location heuristic of
`parseLeadDetails` (part_005 lines 2534-2536):
`(?:vivo|resido|estoy|radico|me\s+encuentro)\s+(?:actualmente\s+)?(?:en|en\s+la\s+ciudad\s+de)\s+(capture)`. -/
def locHeur1At (l : JStr) : Option JStr := go locVerbs l
where
  locVerbs : List (List JStr) :=
    [[str "vivo"], [str "resido"], [str "estoy"], [str "radico"],
     [str "me", str "encuentro"]]
  go : List (List JStr) → JStr → Option JStr
    | [], _ => none
    | v :: vs, s =>
      match matchWordSeq v (jsLower s) with
      | some low =>
        let r := s.drop (s.length - low.length)
        match r with
        | c :: cs =>
          if isWsChar c then
            let r2 := cs.dropWhile isWsChar
            let withAct : Option JStr :=
              match matchWordSeq [str "actualmente"] (jsLower r2) with
              | some low2 =>
                let r3 := r2.drop (r2.length - low2.length)
                match r3 with
                | c2 :: cs2 =>
                  if isWsChar c2 then locEnAt (cs2.dropWhile isWsChar) else none
                | [] => none
              | none => none
            match withAct with
            | some cap => some cap
            | none =>
              match locEnAt r2 with
              | some cap => some cap
              | none => go vs s
          else go vs s
        | [] => go vs s
      | none => go vs s

/-- The alternatives of the second (general) location heuristic
(part_005 lines 2541-2543):
`de|desde|soy\s+de|somos\s+de|procedo\s+de|vengo\s+de|originario\s+de|originaria\s+de|nac[ií]\s+en|radico\s+en`. -/
def locAlts2 : List (List JStr) :=
  [[str "de"], [str "desde"], [str "soy", str "de"], [str "somos", str "de"],
   [str "procedo", str "de"], [str "vengo", str "de"],
   [str "originario", str "de"], [str "originaria", str "de"],
   [str "naci", str "en"], [str "nací", str "en"], [str "radico", str "en"]]

/-- Position matcher of the second location heuristic: one of the
alternatives, `\s+`, then the lazy location capture. -/
def locHeur2At (l : JStr) : Option JStr := go locAlts2 l
where
  go : List (List JStr) → JStr → Option JStr
    | [], _ => none
    | a :: rest, s =>
      match matchWordSeq a (jsLower s) with
      | some low =>
        let r := s.drop (s.length - low.length)
        match r with
        | c :: cs =>
          if isWsChar c then
            match locCaptureFrom (cs.dropWhile isWsChar) with
            | some cap => some cap
            | none => go rest s
          else go rest s
        | [] => go rest s
      | none => go rest s

/-- The label-to-field table of `parseLeadDetails` (part_005 lines
2553-2560), keyed by `normalizeLabel`. -/
def labelLookupPairs : List (JStr × LeadField) :=
  ([str "nombre", str "name", str "nombre completo", str "full name"].map (·, LeadField.name)) ++
  ([str "correo", str "email", str "correo electronico", str "correo electrónico", str "mail"].map
    (·, LeadField.email)) ++
  ([str "pais", str "país", str "country"].map (·, LeadField.country)) ++
  ([str "ciudad", str "city"].map (·, LeadField.city)) ++
  ([str "mensaje", str "message", str "comentario", str "message body"].map
    (·, LeadField.message)) ++
  ([str "telefono", str "teléfono", str "phone", str "whatsapp"].map (·, LeadField.phone))

/-- Label lookup by normalised key. -/
def labelLookup (key : JStr) : Option LeadField :=
  (labelLookupPairs.find? (fun kv => decide (normalizeLabel kv.1 = key))).map (·.2)

/-- The label-line separators `[:\-–]`. -/
def isLabelSep (c : Char) : Bool := c = ':' || c = '-' || c = '–'

/-- Collect the lines absorbed by a `message:` label (part_005 lines
2578-2589): subsequent lines up to the next line whose own label is in
the lookup table. -/
def collectMsgLines : List JStr → List JStr
  | [] => []
  | line :: rest =>
    let nextLabel := (splitOnPred isLabelSep line).headD []
    let normalizedNext := if nextLabel = [] then ([] : JStr) else normalizeLabel nextLabel
    if normalizedNext ≠ [] ∧ (labelLookup normalizedNext).isSome then []
    else line :: collectMsgLines rest

/-- Embedding of the label-line loop of `parseLeadDetails` (part_005
lines 2569-2594).  As in the source, the outer iteration continues with
the following line even after a message label absorbed its successors
(those unlabelled lines are simply skipped again). -/
def processLabelLines : List JStr → ParsedLead → ParsedLead
  | [], d => d
  | line :: rest, d =>
    match splitOnPred isLabelSep line with
    | [] => processLabelLines rest d
    | rawLabel :: restPieces =>
      if rawLabel = [] ∨ restPieces = [] then processLabelLines rest d
      else
        match labelLookup (normalizeLabel rawLabel) with
        | none => processLabelLines rest d
        | some f =>
          let remainder := jsTrim (joinChar ':' restPieces)
          if f = .message then
            let collected := collectMsgLines rest
            let d' := capture d .message
              (some (jsTrim (joinSpace (remainder :: collected)))) (str "text")
            processLabelLines rest d'
          else processLabelLines rest (capture d f (some remainder) (str "text"))

/-- Embedding of `Math.min`. -/
def mathMin (a b : Frac) : Frac := if Frac.le a b then a else b

/-- Embedding of `Math.max`. -/
def mathMax (a b : Frac) : Frac := if Frac.le a b then b else a

/-- Round half up to the nearest integer (`⌊x + 1/2⌋`), for a positive
denominator. -/
def Frac.roundInt (f : Frac) : Int := Int.fdiv (2 * f.num + f.den) (2 * f.den)

/-- Round to two decimals — the embedding of `Number(x.toFixed(2))`.
Every confidence value is an exact multiple of 1/10, so the binary
floating-point detour of the source prints the same two decimals. -/
def round2 (q : Frac) : Frac := ⟨(q.mul (frac 100 1)).roundInt, 100⟩

/-- The filled-field count of the confidence computation (part_005 lines
2614-2615): how many of email, name, country, city, message are set. -/
def leadFilledCount (d : ParsedLead) : Nat :=
  [d.email, d.name, d.country, d.city, d.message].countP Option.isSome

/-- The confidence formula (part_005 lines 2614-2617):
`Math.min(1, Number((filled / 5 + bonus).toFixed(2)))` with a 0.1 bonus
for a phone. -/
def leadConfidence (d : ParsedLead) : Frac :=
  mathMin (frac 1 1) (round2 (Frac.add (frac (leadFilledCount d) 5)
    (if d.phone.isSome then frac 1 10 else frac 0 1)))

set_option maxHeartbeats 2000000 in
/-- Embedding of `parseLeadDetails` (part_005 lines 2348-2620).  The
location-phrase decomposition `parseLocationComponents` (whose output
feeds `applyLocationCandidate`) is abstracted as the `parseLoc`
parameter; every other step is embedded. -/
def parseLeadDetails (parseLoc : JStr → Option JStr × Option JStr)
    (payload : MCPayload) (contact : Option MCContact) : ParsedLead :=
  let fullContact := payload.fullContactData
  let instagramUsername := safetyString (extractInstagram contact).1
  let applyLoc : ParsedLead → Option JStr → JStr → ParsedLead := fun d raw origin =>
    match raw with
    | none => d
    | some r =>
      let parsed := parseLoc r
      let d1 := match parsed.1 with
        | some c => capture d .city (some c) origin
        | none => d
      match parsed.2 with
      | some co => capture d1 .country (some co) origin
      | none =>
        match parsed.1 with
        | some c =>
          match matchCountryFromCity (some c) with
          | some ic => capture d1 .country (some ic) (origin ++ str ":city-inferred")
          | none => d1
        | none => d1
  let contactEmail :=
    match safetyString (contact.bind (·.email)) with
    | some v => some v
    | none => safetyString (pickFirst (contact.bind (·.emails)))
  let d1 := capture {} .email contactEmail (str "contact")
  let d2 := match fullContact with
    | none => d1
    | some fc =>
      let a := capture d1 .name (safetyString fc.name) (str "contact:full")
      let b := capture a .email (safetyString fc.email) (str "contact:full")
      let messageCandidate :=
        match safetyString fc.last_input_text with
        | some v => some v
        | none =>
          match fc.custom_fields with
          | some entries => safetyString (objLookup entries (str "last_dm_text"))
          | none => none
      match messageCandidate with
      | some m => capture b .message (some m) (str "contact:full")
      | none => b
  let assembledName : JStr :=
    match safetyString (contact.bind (·.name)) with
    | some v => v
    | none =>
      jsTrim (joinSpace (([safetyString (contact.bind (·.first_name)),
        safetyString (contact.bind (·.last_name))].filterMap id)))
  let normalizedContactName := (humanizeIdentifier (some assembledName)).getD assembledName
  let d3 := if normalizedContactName = [] then d2
    else capture d2 .name (some normalizedContactName) (str "contact")
  let d4 := capture d3 .phone
    (match safetyString (contact.bind (·.phone)) with
     | some v => some v
     | none => safetyString (pickFirst (contact.bind (·.phones)))) (str "contact")
  let cf := contact.bind (·.custom_fields)
  let fieldCountry := findCustomField cf [str "country", str "pais", str "país"]
  let fieldCity := findCustomField cf
    [str "city", str "ciudad", str "city_name", str "ciudad_residencia"]
  let fieldEmail := findCustomField cf
    [str "email", str "correo", str "correo_electronico", str "mail",
     str "email_raw_from_first_dm", str "email_from_first_dm",
     str "email_dm", str "correo_dm"]
  let d5 := capture d4 .country fieldCountry (str "custom_field")
  let d6 := capture d5 .city fieldCity (str "custom_field")
  let d7 := capture d6 .email fieldEmail (str "custom_field")
  let push : List JStr → Option JStr → List JStr := fun acc v =>
    match safetyString v with
    | some s => if acc.any (fun x => decide (x = s)) then acc else acc ++ [s]
    | none => acc
  let tc0 := push [] payload.messageText
  let tc1 := push tc0 (fallbackString payload (str "last_text_input"))
  let tc2 := push tc1 (fallbackString payload (str "message_text"))
  let tc3 := push tc2 (fallbackString payload (str "text"))
  let tc4 := match fullContact with
    | none => tc3
    | some fc =>
      let a := push tc3 (safetyString fc.last_input_text)
      match fc.custom_fields with
      | none => a
      | some entries =>
        let b := push a (safetyString (objLookup entries (str "last_dm_text")))
        [str "dm_buffer", str "message_buffer", str "mensaje_buffer",
         str "mensaje_dm", str "raw_dm_buffer", str "dm_text_buffer"].foldl
          (fun acc k =>
            if objHasKey entries k then push acc (safetyString (objLookup entries k)) else acc) b
  let tc5 := match payload.data with
    | none => tc4
    | some kvs => kvs.foldl (fun acc kv => push acc (some kv.2)) tc4
  let text := jsTrim (joinChar '\n' tc5)
  let dT :=
    if text = [] then d7
    else
      let d8 := { d7 with rawText := some text }
      let d9 := capture d8 .email (emailFirstMatch text) (str "text")
      let d10 := capture d9 .phone (phoneFirstMatch text) (str "text")
      let d11 := match heurName1 text with
        | some v => capture d10 .name (some v) (str "text:heuristic")
        | none => d10
      let d12 := match heurName2 text with
        | some v => capture d11 .name (some v) (str "text:heuristic")
        | none => d11
      let d13 := match scanFor locHeur1At text with
        | some frag => applyLoc d12 (some frag) (str "text:heuristic")
        | none => d12
      let d14 := match scanFor locHeur2At text with
        | some frag => applyLoc d13 (some frag) (str "text:heuristic")
        | none => d13
      let lines := ((splitOnPred (fun c => c = '\n' || c = '\r') text).map jsTrim).filter (· ≠ [])
      let d15 := processLabelLines lines d14
      if d15.message.isSome then d15
      else capture d15 .message (some text) (str "text:fallback")
  let dA := if dT.name.isSome then dT
    else capture dT .name (humanizeIdentifier instagramUsername) (str "instagram_username")
  let dB := if dA.name.isSome then dA
    else
      let emailCandidate :=
        match dA.email with
        | some v => some v
        | none =>
          match contactEmail with
          | some v => some v
          | none => fallbackString payload (str "contact_email")
      capture dA .name (deriveNameFromEmail emailCandidate) (str "email_local")
  let dC :=
    match dB.city, dB.country with
    | some c, none =>
      match matchCountryFromCity (some c) with
      | some ic => capture dB .country (some ic) (str "city-inferred")
      | none => dB
    | _, _ => dB
  { dC with confidence := leadConfidence dC }

/-- Embedding of the low-confidence alert gate of `executePipeline`
(part_005 line 3075): an alert is posted exactly when the parsed
confidence is below 0.4. -/
def lowConfidenceAlert (confidence : Frac) : Bool := Frac.lt confidence (frac 2 5)

/-- The "hola" scenario payload: a delivery carrying only the raw DM
text, no contact object, no custom fields. -/
def holaPayload : MCPayload := { messageText := some (str "hola") }

/-- A payload whose DM text carries labelled name, email, country, city
and message lines (and no phone). -/
def fullLeadPayload : MCPayload :=
  { messageText := some (str "Nombre: Maria Lopez\nCorreo: maria.lopez@example.com\nPaís: Colombia\nCiudad: Bogotá\nMensaje: Quiero recibir el regalo") }

/-- A location decomposition that never fires, usable where the location
branch is not exercised. -/
def noLoc : JStr → Option JStr × Option JStr := fun _ => (none, none)

/-! ## Location resolver (src/unnamed/part_012, `extractLocationFromText`
and its helpers) -/

/-- Embedding of `strip` (part_012 lines 84-86): NFKD decomposition,
combining-mark removal, lower-casing, trim. -/
def stripJs (l : JStr) : JStr := jsTrim (normalizeJs l)

/-- The `COUNTRIES` table of part_012 (lines 9-14), in source order. -/
def countriesList : List JStr :=
  [str "argentina", str "bolivia", str "brasil", str "brazil", str "chile",
   str "colombia", str "costa rica", str "cuba", str "ecuador", str "el salvador",
   str "guatemala", str "haiti", str "haití", str "honduras", str "mexico",
   str "méxico", str "nicaragua", str "panama", str "panamá", str "paraguay",
   str "peru", str "perú", str "puerto rico", str "república dominicana",
   str "republica dominicana", str "uruguay", str "venezuela",
   str "estados unidos", str "united states", str "usa", str "u.s.a",
   str "u.s.a.", str "eeuu", str "e.e.u.u", str "canada", str "canadá"]

/-- The `STOPWORDS` set of part_012 (lines 16-40). -/
def stopwordsList : List JStr :=
  [str "de", str "del", str "en", str "es", str "mi", str "correo", str "mail",
   str "email", str "ciudad", str "capital", str "region", str "región",
   str "estado", str "provincia", str "municipio", str "bella", str "bonita",
   str "hermosa", str "linda", str "preciosa", str "lindisima", str "lindísima",
   str "maravillosa"]

/-- The `TRAILING_CONNECTORS` set of part_012 (lines 45-58). -/
def trailingConnectors : List JStr :=
  [str "en", str "del", str "de", str "al", str "a", str "la", str "el",
   str "los", str "las", str "por", str "para", str "con"]

/-- The word alternatives of `LOCATION_SEGMENT_STOP_RE` (part_012 lines
60-61); the optional-suffix group `depresi(?:[óo]n)?` is expanded, and
`grac\s?ias` is realised as the two alternatives with and without inner
whitespace. -/
def segStopWords : List (List JStr) :=
  [[str "gracias"], [str "grac", str "ias"], [str "claro"], [str "mensaje"],
   [str "correo"], [str "email"], [str "mail"], [str "proyecto"],
   [str "depresión"], [str "depresion"], [str "depresi"], [str "salida"],
   [str "proceso"], [str "años"], [str "ano"], [str "bendiciones"],
   [str "familia"], [str "ayuda"], [str "apoyo"], [str "obsequio"]]

/-- The `LOCATION_SEGMENT_STOP_RE` test (case-insensitive,
boundary-delimited). -/
def segStopTest (s : JStr) : Bool := hasAnyWordSeq segStopWords (jsLower s)

/-- The `NATIONALITY_COUNTRY` map of part_012 (lines 63-82), in insertion
order. -/
def nationalityPairs : List (JStr × JStr) :=
  [(str "colombiana", str "Colombia"), (str "colombiano", str "Colombia"),
   (str "mexicana", str "México"), (str "mexicano", str "México"),
   (str "peruana", str "Perú"), (str "peruano", str "Perú"),
   (str "chilena", str "Chile"), (str "chileno", str "Chile"),
   (str "argentina", str "Argentina"), (str "argentino", str "Argentina"),
   (str "venezolana", str "Venezuela"), (str "venezolano", str "Venezuela"),
   (str "ecuatoriana", str "Ecuador"), (str "ecuatoriano", str "Ecuador"),
   (str "uruguaya", str "Uruguay"), (str "uruguayo", str "Uruguay"),
   (str "boliviana", str "Bolivia"), (str "boliviano", str "Bolivia")]

/-- One item of the gazetteer file: canonical city name, country, synonym
spellings. -/
structure CityItem where
  city : JStr
  country : Option JStr := none
  syn : List JStr := []
deriving DecidableEq, Repr

/-- Modelled from the spec: the gazetteer data file
(`lib/data/latam_cities.min.json`, required by part_012 and
location.ts) is not among the sources.  The spec describes it as a
"static table of canonical place names with spelling synonyms", each
entry carrying a canonical city name, a country and synonym spellings
(the country is optional in the source's entry type), and its fixtures
name La Paz (Bolivia) and San Carlos (Costa Rica).  The items below
realise that description; the duplicated Valencia entry exercises the
city-to-country inference over entries lacking a country. -/
def cityItems : List CityItem :=
  [⟨str "La Paz", some (str "Bolivia"), [str "lapaz"]⟩,
   ⟨str "San Carlos", some (str "Costa Rica"), []⟩,
   ⟨str "Bogotá", some (str "Colombia"), [str "bogota"]⟩,
   ⟨str "Cochabamba", some (str "Bolivia"), []⟩,
   ⟨str "Valencia", none, []⟩,
   ⟨str "Valencia", some (str "Venezuela"), []⟩]

/-- One entry of the in-memory `INDEX` (part_012 lines 125-135): the
stripped key, the canonical city, the country. -/
structure GazEntry where
  key : JStr
  city : JStr
  country : Option JStr
deriving DecidableEq, Repr

/-- Embedding of the `INDEX` construction (part_012 lines 126-135). -/
def INDEX : List GazEntry :=
  (cityItems.map (fun item =>
    GazEntry.mk (stripJs item.city) item.city item.country ::
      item.syn.map (fun a => GazEntry.mk (stripJs a) item.city item.country))).flatten

/-- Embedding of `lookupCountry` (part_012 lines 137-147): the first
INDEX entry with the stripped key and a country. -/
def lookupCountry (city : Option JStr) : Option JStr :=
  match city with
  | none => none
  | some c =>
    let key := stripJs c
    if key = [] then none
    else (INDEX.find? (fun e => decide (e.key = key) && e.country.isSome)).bind (·.country)

/-- The scan of `bestCityMatch`: keep the first strictly smaller
distance, stop at distance zero. -/
def bestCityFold (query : JStr) : List GazEntry → Option (GazEntry × Nat) → Option (GazEntry × Nat)
  | [], best => best
  | e :: rest, best =>
    let d := levenshtein query e.key
    let best' := match best with
      | none => some (e, d)
      | some (be, bd) => if d < bd then some (e, d) else some (be, bd)
    match best' with
    | some (_, 0) => best'
    | _ => bestCityFold query rest best'

/-- A gazetteer match: canonical city, country, score. -/
structure CityMatch where
  city : JStr
  country : Option JStr
  score : Frac
deriving DecidableEq, Repr

/-- Embedding of `bestCityMatch` (part_012 lines 149-167): nearest INDEX
entry under `distance / max(3, |query|) ≤ 0.3`, scored
`0.9 - ratio * 0.5`. -/
def bestCityMatch (raw : JStr) : Option CityMatch :=
  let query := stripJs raw
  if query = [] then none
  else
    match bestCityFold query INDEX none with
    | none => none
    | some (e, d) =>
      let ratio : Frac := Frac.div (frac d 1) (frac (Nat.max 3 query.length) 1)
      if Frac.le ratio (frac 3 10) then
        some ⟨e.city, e.country, Frac.sub (frac 9 10) (ratio.mul (frac 1 2))⟩
      else none

/-- Embedding of `tryCountry` (part_012 lines 169-183).  The threshold
`Math.ceil(Math.max(1, |query| * 0.2))` equals `max 1 ⌈|query|/5⌉` (the
floating-point products of the source round back to the same values at
the realistic lengths). -/
def tryCountry (raw : JStr) : Option JStr :=
  let query := stripJs raw
  if query = [] then none
  else
    let threshold := Nat.max 1 ((query.length + 4) / 5)
    match countriesList.find? (fun c => decide (levenshtein query c ≤ threshold)) with
    | none => none
    | some m =>
      let normalized := stripJs m
      if normalized = str "mexico" then some (str "México")
      else if normalized = str "peru" then some (str "Perú")
      else if normalized = str "panama" then some (str "Panamá")
      else if normalized = str "haiti" then some (str "Haití")
      else if normalized = str "republica dominicana" then some (str "República Dominicana")
      else some (toTitleCase m)

/-- Embedding of `trimTrailingConnectors` (part_012 lines 96-106). -/
def trimTrailingConnectors (tokens : List JStr) : List JStr :=
  go tokens.length tokens
where
  go : Nat → List JStr → List JStr
    | 0, ts => ts
    | fuel + 1, ts =>
      if 1 < ts.length then
        let last := ts.getLastD []
        if last = [] then ts
        else
          let normalized := stripJs last
          if normalized = [] then ts
          else if trailingConnectors.any (fun c => decide (c = normalized)) then
            go fuel ts.dropLast
          else ts
      else ts

/-- Consumed length of a word-sequence match at the head with a trailing
word boundary, case-insensitively (the patterns are lower-case). -/
def wordSeqHereLen (ws : List JStr) (l : JStr) : Option Nat :=
  match matchWordSeq ws (jsLower l) with
  | none => none
  | some low =>
    let consumed := l.length - low.length
    match l.drop consumed with
    | [] => some consumed
    | c :: _ => if isWordChar c then none else some consumed

/-- First matching alternative at the head, with its consumed length. -/
def anySeqHereLen : List (List JStr) → JStr → Option Nat
  | [], _ => none
  | p :: ps, l =>
    match wordSeqHereLen p l with
    | some n => some n
    | none => anySeqHereLen ps l

/-- Global boundary-delimited word replacement
(`replace(/\b(alts)\b/gi, rep)`), fuel-driven. -/
def replaceWordSeqsGo (pats : List (List JStr)) (rep : Char) : Nat → Bool → JStr → JStr
  | 0, _, l => l
  | _ + 1, _, [] => []
  | fuel + 1, prev, l@(c :: rest) =>
    match (if prev then none else anySeqHereLen pats l) with
    | some n => rep :: replaceWordSeqsGo pats rep fuel false (l.drop n)
    | none => c :: replaceWordSeqsGo pats rep fuel (isWordChar c) rest

/-- Replace each boundary-delimited occurrence of the alternatives with a
space. -/
def replaceWordSeqs (pats : List (List JStr)) (l : JStr) : JStr :=
  replaceWordSeqsGo pats ' ' l.length false l

/-- Truncate the string from the first boundary-delimited occurrence of
one of the alternatives (`replace(/\b(alts)\b.*$/i, '')`). -/
def truncAtWordSeqs (pats : List (List JStr)) (l : JStr) : JStr := go false l
where
  go : Bool → JStr → JStr
    | _, [] => []
    | prev, ls@(c :: rest) =>
      match (if prev then none else anySeqHereLen pats ls) with
      | some _ => []
      | none => c :: go (isWordChar c) rest

/-- Drop a trailing run of `? . !` (`replace(/[?.!]+$/g, '')`). -/
def dropTrailPunct (l : JStr) : JStr :=
  (l.reverse.dropWhile (fun c => c = '?' || c = '.' || c = '!')).reverse

/-- The noise-word alternatives of `cleanCandidateValue`
(part_012 line 187), in source order. -/
def candNoiseWords : List (List JStr) :=
  [[str "ciudad"], [str "capital"], [str "de"], [str "del"], [str "bella"],
   [str "bonita"], [str "hermosa"], [str "linda"], [str "preciosa"],
   [str "lindisima"], [str "lindísima"], [str "maravillosa"]]

/-- The `(?:el|la)?\s*pueblo\s+se\s+llama` alternatives (the optional
article, when present, is separated by whitespace in every input of this
code base). -/
def puebloSeqs : List (List JStr) :=
  [[str "el", str "pueblo", str "se", str "llama"],
   [str "la", str "pueblo", str "se", str "llama"],
   [str "pueblo", str "se", str "llama"]]

/-- The `(?:el|la)?\s*ciudad\s+se\s+llama` alternatives. -/
def ciudadSeqs : List (List JStr) :=
  [[str "el", str "ciudad", str "se", str "llama"],
   [str "la", str "ciudad", str "se", str "llama"],
   [str "ciudad", str "se", str "llama"]]

/-- The tail-killing patterns of `cleanCandidateValue`/`cleanSegment`
(`mi correo/mail/email/whatsapp/celular`). -/
def tailKillSeqs1 : List (List JStr) :=
  [[str "mi", str "correo"], [str "mi", str "mail"], [str "mi", str "email"],
   [str "mi", str "whatsapp"], [str "mi", str "celular"]]

/-- The `(?:correo|mail|email)\s+es` tail-killing patterns. -/
def tailKillSeqs2 : List (List JStr) :=
  [[str "correo", str "es"], [str "mail", str "es"], [str "email", str "es"]]

/-- The `puedes?\s+escrib(?:ir|irme)` tail-killing patterns. -/
def tailKillSeqs3 : List (List JStr) :=
  [[str "puede", str "escribir"], [str "puede", str "escribirme"],
   [str "puedes", str "escribir"], [str "puedes", str "escribirme"]]

/-- The `pueden\s+escribirme` tail-killing pattern. -/
def tailKillSeqs4 : List (List JStr) := [[str "pueden", str "escribirme"]]

/-- The `mi\s+n[úu]mero` tail-killing patterns. -/
def tailKillSeqs5 : List (List JStr) :=
  [[str "mi", str "número"], [str "mi", str "numero"]]

/-- Apply the shared tail-killing chain and final punctuation trim. -/
def killTails (s : JStr) : JStr :=
  jsTrim (dropTrailPunct
    (truncAtWordSeqs tailKillSeqs5
      (truncAtWordSeqs tailKillSeqs4
        (truncAtWordSeqs tailKillSeqs3
          (truncAtWordSeqs tailKillSeqs2
            (truncAtWordSeqs tailKillSeqs1 s))))))

/-- Embedding of `cleanCandidateValue` (part_012 lines 185-199). -/
def cleanCandidateValue (v : JStr) : JStr :=
  killTails (jsTrim (collapseWs
    (replaceWordSeqs [[str "entre"]]
      (replaceWordSeqs ciudadSeqs
        (replaceWordSeqs puebloSeqs
          (replaceWordSeqs candNoiseWords v))))))

/-- Embedding of `cleanSegment` (part_012 lines 226-237): the same chain
without the noise-word removal and whitespace collapsing. -/
def cleanSegment (seg : JStr) : JStr :=
  killTails
    (replaceWordSeqs [[str "entre"]]
      (replaceWordSeqs ciudadSeqs
        (replaceWordSeqs puebloSeqs seg)))

/-- The locative prefix alternatives of `extractPhrase` (part_012 lines
204-205), in source order, with the `[ao]` class expanded. -/
def phrasePreAlts : List (List JStr) :=
  [[str "en"], [str "desde"], [str "soy", str "de"],
   [str "soy", str "originaria", str "de"], [str "soy", str "originario", str "de"],
   [str "vivo", str "en"], [str "vivo", str "entre"],
   [str "me", str "encuentro", str "en"], [str "estoy", str "en"],
   [str "resido", str "en"], [str "radico", str "en"],
   [str "de", str "la", str "ciudad", str "de"], [str "la", str "ciudad", str "de"]]

/-- Match of one locative prefix at the head followed by `\s+(.+)`; the
capture is the remainder after the whitespace run. -/
def phrasePreAt (l : JStr) : Option JStr := go phrasePreAlts
where
  go : List (List JStr) → Option JStr
    | [] => none
    | a :: rest =>
      match matchWordSeq a (jsLower l) with
      | some low =>
        let r := l.drop (l.length - low.length)
        match r with
        | c :: cs =>
          if isWsChar c then
            let cap := cs.dropWhile isWsChar
            if cap = [] then go rest else some cap
          else go rest
        | [] => go rest
      | none => go rest

/-- Scan of the locative-prefix pattern with the `\b` context. -/
def phraseScanGo : Bool → JStr → Option JStr
  | _, [] => none
  | prev, l@(c :: rest) =>
    match (if prev then none else phrasePreAt l) with
    | some cap => some cap
    | none => phraseScanGo (isWordChar c) rest

/-- The label keywords of the second branch of `extractPhrase` (part_012
line 212): a match of
`pa[ií]s(?:es)?(?:\s+y\s+ciudad)?|ciudad(?:\s+y\s+pa[ií]s)?|ubicaci[óo]n`
(with `\b` on both sides) reduces to one of these words occurring
boundary-delimited. -/
def phraseLabelWords : List (List JStr) :=
  [[str "pais"], [str "país"], [str "paises"], [str "países"],
   [str "ciudad"], [str "ubicacion"], [str "ubicación"]]

/-- Split one line at `:\s*` with limit 2: the label before the first
colon, and the value between the first separator and the next colon. -/
def splitColonLimit2 (l : JStr) : Option (JStr × JStr) :=
  let label := l.takeWhile (· ≠ ':')
  if label.length = l.length then none
  else
    let after := (l.drop (label.length + 1)).dropWhile isWsChar
    some (label, after.takeWhile (· ≠ ':'))

/-- The labelled-line branch of `extractPhrase` (part_012 lines
212-221). -/
def phraseLabelBranch (input : JStr) : JStr := go (splitOnPred (fun c => c = '\n' || c = '\r') input)
where
  go : List JStr → JStr
    | [] => []
    | line :: rest =>
      let trimmed := jsTrim line
      if trimmed = [] then go rest
      else
        match splitColonLimit2 trimmed with
        | none => go rest
        | some (label, value) =>
          if value = [] then go rest
          else if !hasAnyWordSeq phraseLabelWords (jsLower label) then go rest
          else
            let candidate := cleanCandidateValue value
            if candidate ≠ [] then candidate else go rest

/-- Embedding of `extractPhrase` (part_012 lines 201-224). -/
def extractPhrase (input : Option JStr) : JStr :=
  match input with
  | none => []
  | some inp =>
    let collapsed := jsTrim (collapseWs inp)
    match phraseScanGo false collapsed with
    | some cap =>
      let initial := cleanCandidateValue cap
      if initial ≠ [] then initial else phraseLabelBranch inp
    | none => phraseLabelBranch inp

/-- A location guess as part_012 returns it. -/
structure LocationGuess where
  city : Option JStr := none
  country : Option JStr := none
  score : Frac := frac 0 1
  source : JStr := str "dm_text"
deriving DecidableEq, Repr

/-- The `invalidCityKeywords` list of `finalizeResult` (part_012 lines
279-292). -/
def invalidCityKeywords : List JStr :=
  [str "pais", str "país", str "estado", str "estados", str "unidos",
   str "viviendo", str "actualmente", str "ahora", str "vivir", str "vivo",
   str "poco", str "conocido"]

/-- The suffix-splitting loop of `finalizeResult` (part_012 lines
308-335): try ever longer token suffixes as a country; on the first hit
set the country if unset and resolve the prefix as the city. -/
def splitTailGo (tokensForSplit rawCityTokens : List JStr) (rc rco : Option JStr) :
    Nat → Nat → Option JStr × Option JStr
  | 0, _ => (rc, rco)
  | fuel + 1, suffix =>
    if suffix < tokensForSplit.length then
      let tail := joinSpace (tokensForSplit.drop (tokensForSplit.length - suffix))
      match tryCountry tail with
      | none => splitTailGo tokensForSplit rawCityTokens rc rco fuel (suffix + 1)
      | some matchedCountry =>
        let rco1 := match rco with
          | some x => some x
          | none => some matchedCountry
        let cityPortion :=
          trimTrailingConnectors (tokensForSplit.take (tokensForSplit.length - suffix))
        if cityPortion ≠ [] then
          let candidateCity := toTitleCase (joinSpace cityPortion)
          match bestCityMatch candidateCity with
          | some m =>
            let rco2 := match rco1 with
              | some x => some x
              | none => m.country
            (some m.city, rco2)
          | none => (some candidateCity, rco1)
        else
          (if rawCityTokens ≠ [] then some (toTitleCase (joinSpace rawCityTokens)) else none,
           rco1)
    else (rc, rco)

/-- Embedding of `finalizeResult` (part_012 lines 243-347). -/
def finalizeResult (city country : Option JStr) (score : Frac) : Option LocationGuess :=
  let resolvedCountry0 : Option JStr :=
    match country with
    | some co => tryCountry co
    | none => none
  let step1 : Option JStr × Option JStr × Frac :=
    match city with
    | none => (none, resolvedCountry0, score)
    | some c =>
      match bestCityMatch c with
      | some m =>
        ((some m.city),
         (match resolvedCountry0 with
          | some x => some x
          | none => m.country),
         mathMax score m.score)
      | none =>
        match tryCountry c with
        | some cac =>
          (none,
           (match resolvedCountry0 with
            | some x => some x
            | none => some cac),
           score)
        | none => (none, resolvedCountry0, score)
  let resolvedCity1 := step1.1
  let resolvedCountry1 := step1.2.1
  let resolvedScore := step1.2.2
  let rawCityTokens :=
    match city with
    | some c => trimTrailingConnectors (wsWords c)
    | none => []
  let resolvedCity2 : Option JStr :=
    match resolvedCity1, city with
    | none, some c =>
      let trimmedCity := jsTrim c
      if trimmedCity = [] then none
      else
        let loweredCity := stripJs trimmedCity
        let cityTokens := trimTrailingConnectors (wsWords trimmedCity)
        let containsInvalid := invalidCityKeywords.any (fun k => containsSub k loweredCity)
        if !containsInvalid && decide (cityTokens ≠ []) then
          some (toTitleCase (joinSpace cityTokens))
        else none
    | rc, _ => rc
  let resolvedCountry2 : Option JStr :=
    match resolvedCity2, resolvedCountry1 with
    | some rc, none => lookupCountry (some rc)
    | _, rco => rco
  let tokensForSplit :=
    trimTrailingConnectors (wsWords ((resolvedCity2.getD (city.getD []))))
  let final : Option JStr × Option JStr :=
    if 2 ≤ tokensForSplit.length then
      splitTailGo tokensForSplit rawCityTokens resolvedCity2 resolvedCountry2
        tokensForSplit.length 1
    else (resolvedCity2, resolvedCountry2)
  if final.1 = none ∧ final.2 = none then none
  else some ⟨final.1, final.2, resolvedScore, str "dm_text"⟩

/-- Worker for `splitLocParts`, fuel-driven. -/
def splitLocPartsGo : Nat → JStr → List JStr
  | 0, l => [l]
  | _ + 1, [] => [[]]
  | fuel + 1, c :: rest =>
    if c = ',' then [] :: splitLocPartsGo fuel rest
    else
      match rest with
      | d :: b :: r2 =>
        if d = '-' && isWsChar c && isWsChar b then [] :: splitLocPartsGo fuel r2
        else
          match splitLocPartsGo fuel rest with
          | [] => [[c]]
          | h :: t => (c :: h) :: t
      | _ =>
        match splitLocPartsGo fuel rest with
        | [] => [[c]]
        | h :: t => (c :: h) :: t

/-- Split on `,` or a whitespace-dash-whitespace separator
(`split(/,|\s-\s/)`). -/
def splitLocParts (l : JStr) : List JStr := splitLocPartsGo l.length l

/-- Split on `:\s*` (global), fuel-driven. -/
def splitColonWsGo : Nat → JStr → List JStr
  | 0, l => [l]
  | _ + 1, [] => [[]]
  | fuel + 1, c :: rest =>
    if c = ':' then [] :: splitColonWsGo fuel (rest.dropWhile isWsChar)
    else
      match splitColonWsGo fuel rest with
      | [] => [[c]]
      | h :: t => (c :: h) :: t

/-- Split on `:\s*` as `phrase.split(/:\s*/)` does. -/
def splitColonWs (l : JStr) : List JStr := splitColonWsGo l.length l

set_option maxHeartbeats 2000000 in
/-- Embedding of `extractLocationFromText` (part_012 lines 239-487). -/
def extractLocationFromText (dm : Option JStr) : Option LocationGuess :=
  let phrase := extractPhrase dm
  if phrase = [] then none
  else
    let lowered := jsLower phrase
    let nationalityCountry :=
      (nationalityPairs.find? (fun kv => containsSub kv.1 lowered)).map (·.2)
    let normalizedPhrase := replaceWordSeqsGo [[str "y"], [str "e"]] ',' phrase.length false phrase
    let parts0 :=
      ((splitLocParts normalizedPhrase).map (fun p => cleanSegment (jsTrim p))).filter
        (fun s => s ≠ [] ∧ !segStopTest s)
    let parts :=
      if parts0 = [] then
        ((splitColonWs phrase).map (fun p => cleanSegment (jsTrim p))).filter
          (fun s => s ≠ [] ∧ !segStopTest s)
      else parts0
    let commaParts :=
      ((splitOnPred (· = ',') phrase).map (fun p => cleanSegment (jsTrim p))).filter
        (fun s => s ≠ [] ∧ !segStopTest s)
    let commaInfo : Option LocationGuess × Option JStr :=
      if 2 ≤ commaParts.length then
        let firstPartCountry := tryCountry (commaParts.headD [])
        let commaCountry :=
          match firstPartCountry with
          | some c => some c
          | none => nationalityCountry
        let commaCity := (commaParts.tail).find? (fun segment =>
          if segment.length < 3 then false
          else
            match tryCountry segment with
            | some cm => decide (stripJs segment ≠ stripJs cm)
            | none => true)
        let res :=
          match commaCity with
          | some cc =>
            let candidateCountry :=
              match commaCountry with
              | some x => some x
              | none =>
                match tryCountry (commaParts.headD []) with
                | some x => some x
                | none => nationalityCountry
            finalizeResult (some (toTitleCase cc)) candidateCountry (frac 13 20)
          | none => none
        (res,
         match commaCountry with
         | some x => some x
         | none => nationalityCountry)
      else (none, nationalityCountry)
    match commaInfo.1 with
    | some r => some r
    | none =>
      let detectedCountry :=
        match parts.findSome? (fun s => tryCountry s) with
        | some c => some c
        | none => commaInfo.2
      let cityLoop := parts.findSome? (fun segment =>
        match bestCityMatch segment with
        | some m =>
          finalizeResult (some m.city)
            (match m.country with
             | some x => some x
             | none => detectedCountry) m.score
        | none => none)
      match cityLoop with
      | some r => some r
      | none =>
        let tokens := if parts ≠ [] then parts else splitOnPred (· = ' ') normalizedPhrase
        let tokensBranch : Option LocationGuess :=
          if 2 ≤ tokens.length then
            match tryCountry (tokens.getLastD []) with
            | some maybeCountry =>
              let cityCandidate := jsTrim (joinSpace ((tokens.dropLast).filter
                (fun w => !(stopwordsList.any (fun s => decide (s = stripJs w))))))
              let first :=
                match bestCityMatch cityCandidate with
                | some m =>
                  finalizeResult (some m.city)
                    (match m.country with
                     | some x => some x
                     | none => some maybeCountry) m.score
                | none => none
              match first with
              | some r => some r
              | none =>
                if 3 ≤ cityCandidate.length then
                  finalizeResult (some (toTitleCase cityCandidate)) (some maybeCountry) (frac 11 20)
                else none
            | none => none
          else none
        match tokensBranch with
        | some r => some r
        | none =>
          let cityLoop2 := parts.findSome? (fun part =>
            match bestCityMatch part with
            | some m =>
              finalizeResult (some m.city)
                (match m.country with
                 | some x => some x
                 | none => nationalityCountry) m.score
            | none => none)
          match cityLoop2 with
          | some r => some r
          | none =>
            let whole :=
              match bestCityMatch phrase with
              | some m =>
                finalizeResult (some m.city)
                  (match m.country with
                   | some x => some x
                   | none => detectedCountry) m.score
              | none => none
            match whole with
            | some r => some r
            | none =>
              let fallbackSeg := parts.find? (fun segment =>
                if segment.length < 3 then false
                else
                  match tryCountry segment with
                  | some cm =>
                    if stripJs segment = stripJs cm then false
                    else if some cm = detectedCountry then false
                    else true
                  | none => true)
              let fb := fallbackSeg.bind (fun s =>
                finalizeResult (some (toTitleCase s)) detectedCountry (frac 1 2))
              match fb with
              | some r => some r
              | none =>
                let rough := jsTrim (joinSpace (((splitOnPred (· = ' ') phrase).filter
                  (fun w => !(stopwordsList.any (fun s => decide (s = stripJs w))))).take 3))
                let roughRes :=
                  if 3 ≤ rough.length then
                    finalizeResult (some (toTitleCase rough)) detectedCountry (frac 1 2)
                  else none
                match roughRes with
                | some r => some r
                | none =>
                  match detectedCountry with
                  | some _ => finalizeResult none detectedCountry (frac 2 5)
                  | none => none

/-! ## Concrete inputs used by the claim theorems -/

/-- An existing contact with a manually curated name that differs from
its stored Instagram handle. -/
def c1Existing : ContactRow :=
  { id := some (str "contact-1"),
    name := some (str "Maria Perez"),
    name_source := some (str "manual"),
    first_name := some (str "Maria"),
    last_name := some (str "Perez"),
    ig_username := some (str "maruchis"),
    email := some (str "maria@example.com") }

/-- An incoming record whose derived name candidate has the non-manual
source `instagram_full_name`. -/
def c1Record : NewContactRecord :=
  { manychat_contact_id := some (str "mc-9"),
    name := some (str "Pepe Profile"),
    name_source := some (str "instagram_full_name"),
    first_name := some (str "Pepe"),
    last_name := some (str "Profile"),
    email := some (str "maria@example.com"),
    ig_username := some (str "maruchis") }

/-- An incoming record carrying an Instagram username, a ManyChat id and
an email, but no Instagram user id. -/
def c2Record : NewContactRecord :=
  { manychat_contact_id := some (str "mc-7"),
    email := some (str "lead@example.com"),
    instagram_username := some (str "leadgram") }

/-- A store in which only the ManyChat id resolves. -/
def c2Db : MatchStrategy → Option ContactRow := fun k =>
  if k = MatchStrategy.manychat_contact_id then some c1Existing else none

/-- A MailerLite endpoint answering 500 on the first call and 200 on
every later call. -/
def c3Responses : Nat → MlResponse := fun n =>
  if n = 1 then ⟨500, false⟩ else ⟨200, false⟩

/-- A FAILED event one attempt below a maximum of five. -/
def c8Event : WebhookEvent :=
  { id := 1, status := .FAILED, permanent_failed := false, attempt_count := 4 }

end CRM

/-! ## Theorems -/

namespace CRM

/-- Dropping a prefix twice drops it once. -/
theorem dropWhile_idem (p : Char → Bool) (l : JStr) :
    (l.dropWhile p).dropWhile p = l.dropWhile p := by
  induction l with
  | nil => rfl
  | cons c cs ih =>
    cases h : p c with
    | true => simpa [List.dropWhile_cons, h] using ih
    | false => simp [List.dropWhile_cons, h]

/-- `dropWhile` yields a suffix. -/
theorem dropWhile_suffix (p : Char → Bool) (l : JStr) : l.dropWhile p <:+ l := by
  induction l with
  | nil => simp
  | cons c cs ih =>
    cases h : p c with
    | true =>
      simp only [List.dropWhile_cons, h]
      exact ih.trans (List.suffix_cons c cs)
    | false => simp [List.dropWhile_cons, h]

/-- The head of a `dropWhile` result fails the predicate. -/
theorem head_dropWhile_not (p : Char → Bool) (l : JStr) :
    ∀ a, (l.dropWhile p).head? = some a → p a = false := by
  induction l with
  | nil => intro a h; simp at h
  | cons c cs ih =>
    intro a h
    cases hc : p c with
    | true => exact ih a (by simpa [List.dropWhile_cons, hc] using h)
    | false =>
      rw [List.dropWhile_cons, if_neg (by simp [hc])] at h
      simp only [List.head?_cons, Option.some.injEq] at h
      subst h
      exact hc

/-- `jsTrim` is idempotent. -/
theorem jsTrim_idem (l : JStr) : jsTrim (jsTrim l) = jsTrim l := by
  unfold jsTrim
  set B := l.reverse.dropWhile isWsChar with hB
  set t := (B.reverse).dropWhile isWsChar with ht
  obtain ⟨u, hu⟩ : t <:+ B.reverse := ht ▸ dropWhile_suffix isWsChar B.reverse
  have hB2 : B = t.reverse ++ u.reverse := by
    rw [← List.reverse_reverse B, ← hu, List.reverse_append]
  have h1 : t.reverse.dropWhile isWsChar = t.reverse := by
    cases htr : t.reverse with
    | nil => simp
    | cons a rest =>
      have hhead : B.head? = some a := by rw [hB2, htr]; rfl
      have ha : isWsChar a = false := head_dropWhile_not isWsChar l.reverse a (hB ▸ hhead)
      simp [List.dropWhile_cons, ha]

  rw [h1, List.reverse_reverse, ht, dropWhile_idem]

/-- The codomain of `normalizeNameSource` is the five provenance
values. -/
theorem normalizeNameSource_mem (s : Option JStr) :
    normalizeNameSource s = str "instagram_full_name" ∨
    normalizeNameSource s = str "instagram_handle_titlecase" ∨
    normalizeNameSource s = str "email_local" ∨
    normalizeNameSource s = str "manual" ∨
    normalizeNameSource s = str "unknown" := by
  cases s with
  | none => right; right; right; right; rfl
  | some v =>
    simp only [normalizeNameSource]
    split_ifs with h1 h2 h3 h4
    · rcases h1 with h | h | h | h | h <;> subst h <;> tauto
    · left; rfl
    · right; left; rfl
    · right; right; right; left; rfl
    · right; right; right; right; rfl

/-- The source selected by the final-name pick is a normalised source. -/
theorem pipelineFinalNamePick_snd (g : DeriveNameResult) (b : BestNameCandidate) :
    (pipelineFinalNamePick g b).2 = normalizeNameSource b.source ∨
    (pipelineFinalNamePick g b).2 = normalizeNameSource g.source := by
  simp only [pipelineFinalNamePick]
  split_ifs <;> simp

/-- C10: a winning name candidate extracted from DM free text (source tag
`dm_text`) is stored with `name_source = manual`, and every name-source
value the pipeline computes is one of instagram_full_name,
instagram_handle_titlecase, email_local, manual, unknown. -/
theorem c10_dm_text_maps_to_manual :
    normalizeNameSource (some (str "dm_text")) = str "manual" ∧
    (∀ s : Option JStr,
      normalizeNameSource s = str "instagram_full_name" ∨
      normalizeNameSource s = str "instagram_handle_titlecase" ∨
      normalizeNameSource s = str "email_local" ∨
      normalizeNameSource s = str "manual" ∨
      normalizeNameSource s = str "unknown") ∧
    (∀ (v : JStr) (best : BestNameCandidate),
      isBadName (some v) = false → best.name = none →
      pipelineFinalNamePick ⟨some v, frac 3 4, some (str "dm_text")⟩ best =
        (some v, str "manual") ∧
      pipelineFinalNameSource ⟨some v, frac 3 4, some (str "dm_text")⟩ best = str "manual") ∧
    (∀ (g : DeriveNameResult) (b : BestNameCandidate),
      pipelineFinalNameSource g b = str "instagram_full_name" ∨
      pipelineFinalNameSource g b = str "instagram_handle_titlecase" ∨
      pipelineFinalNameSource g b = str "email_local" ∨
      pipelineFinalNameSource g b = str "manual" ∨
      pipelineFinalNameSource g b = str "unknown") := by
  refine ⟨rfl, normalizeNameSource_mem, ?_, ?_⟩
  · intro v best hbad hnone
    have hpick : pipelineFinalNamePick ⟨some v, frac 3 4, some (str "dm_text")⟩ best =
        (some v, str "manual") := by
      unfold pipelineFinalNamePick
      simp [hnone, hbad, Frac.le, frac]
      decide
    refine ⟨hpick, ?_⟩
    simp only [pipelineFinalNameSource, hpick]
  · intro g b
    rcases hp : (pipelineFinalNamePick g b).1 with _ | v
    · simp only [pipelineFinalNameSource, hp]
      right; right; right; right; trivial
    · simp only [pipelineFinalNameSource, hp]
      rcases pipelineFinalNamePick_snd g b with h | h <;> rw [h]
      · exact normalizeNameSource_mem b.source
      · exact normalizeNameSource_mem g.source

/-- C10 witness: a concrete DM-derived candidate is stored as manual. -/
theorem c10_witness :
    isBadName (some (str "Carlos")) = false ∧
    pipelineFinalNamePick ⟨some (str "Carlos"), frac 3 4, some (str "dm_text")⟩ {} =
      (some (str "Carlos"), str "manual") :=
  ⟨by decide, (c10_dm_text_maps_to_manual.2.2.1 (str "Carlos") {} (by decide) rfl).1⟩

/-- `findExisting` returns `none` exactly when every strategy in the
order misses. -/
theorem findExisting_none_iff (db : MatchStrategy → Option ContactRow)
    (order : List MatchStrategy) :
    findExisting db order = none ↔ ∀ k ∈ order, db k = none := by
  induction order with
  | nil => simp [findExisting]
  | cons k rest ih =>
    cases hdb : db k with
    | some c =>
      simp only [findExisting, hdb, List.mem_cons]
      constructor
      · intro h; exact absurd h (by simp)
      · intro h
        have hk := h k (Or.inl rfl)
        rw [hdb] at hk
        exact absurd hk (by simp)
    | none =>
      simp only [findExisting, hdb, List.mem_cons, ih]
      constructor
      · intro h k2 hk2
        rcases hk2 with h2 | h2
        · subst h2; exact hdb
        · exact h k2 h2
      · intro h k2 hk2
        exact h k2 (Or.inr hk2)

/-- A hit of `findExisting` decomposes the order into missed strategies,
the matching strategy, and the rest. -/
theorem findExisting_some_spec (db : MatchStrategy → Option ContactRow) :
    ∀ (order : List MatchStrategy) (c : ContactRow) (k : MatchStrategy),
    findExisting db order = some (c, k) →
    db k = some c ∧ ∃ pre post, order = pre ++ k :: post ∧ ∀ k2 ∈ pre, db k2 = none := by
  intro order
  induction order with
  | nil => intro c k h; simp [findExisting] at h
  | cons k0 rest ih =>
    intro c k h
    cases hdb : db k0 with
    | some c0 =>
      simp only [findExisting, hdb, Option.some.injEq, Prod.mk.injEq] at h
      obtain ⟨hc, hk⟩ := h
      subst hc; subst hk
      exact ⟨hdb, [], rest, rfl, by simp⟩
    | none =>
      simp only [findExisting, hdb] at h
      obtain ⟨hdbk, pre, post, ho, hpre⟩ := ih c k h
      refine ⟨hdbk, k0 :: pre, post, by rw [ho, List.cons_append], ?_⟩
      intro k2 hk2
      rcases List.mem_cons.mp hk2 with h2 | h2
      · subst h2; exact hdb
      · exact hpre k2 h2

/-- The conflict lookup order is the specificity order filtered to the
keys present on the record. -/
theorem conflictLookupOrder_eq (record : NewContactRecord) :
    conflictLookupOrder record = fullLookupOrder.filter (keyPresent record) := by
  unfold conflictLookupOrder fullLookupOrder
  cases h1 : (safetyString record.ig_user_id).isSome <;>
  cases h2 : (safetyString record.instagram_username).isSome <;>
  cases h3 : (safetyString record.ig_username).isSome <;>
  cases h4 : (safetyString record.manychat_contact_id).isSome <;>
  cases h5 : (safetyString record.email).isSome <;>
  simp [keyPresent, h1, h2, h3, h4, h5, List.filter]

/-- C2: on a unique-constraint insert violation the reconciler looks up
the existing contact along the fixed specificity order ig_user_id,
instagram_username, ig_username, manychat_contact_id, email restricted
to the keys present on the record; it re-raises the original error
exactly when every present key misses, and a successful recovery patches
the first match found (every earlier strategy in the order missed). -/
theorem c2_ordered_conflict_lookup (msg : JStr) (record : NewContactRecord)
    (db : MatchStrategy → Option ContactRow) (h : isUniqueViolation msg = true) :
    conflictLookupOrder record = fullLookupOrder.filter (keyPresent record) ∧
    (handleInsertConflict msg record db = Except.error msg ↔
      ∀ k ∈ conflictLookupOrder record, db k = none) ∧
    (∀ row k, handleInsertConflict msg record db = Except.ok (row, k) →
      keyPresent record k = true ∧
      ∃ existing, db k = some existing ∧
        row = applyContactPatch existing (mergePatchPayload record existing) ∧
        ∃ pre post, conflictLookupOrder record = pre ++ k :: post ∧
          ∀ k2 ∈ pre, db k2 = none) := by
  refine ⟨conflictLookupOrder_eq record, ?_, ?_⟩
  · rw [← findExisting_none_iff db (conflictLookupOrder record)]
    unfold handleInsertConflict
    rw [h, if_neg (by simp)]
    cases hfe : findExisting db (conflictLookupOrder record) with
    | none => simp [hfe]
    | some p => obtain ⟨e, k0⟩ := p; simp [hfe]
  · intro row k hok
    unfold handleInsertConflict at hok
    rw [h, if_neg (by simp)] at hok
    cases hfe : findExisting db (conflictLookupOrder record) with
    | none => rw [hfe] at hok; exact absurd hok (by simp)
    | some p =>
      obtain ⟨e, k0⟩ := p
      rw [hfe] at hok
      simp only [Except.ok.injEq, Prod.mk.injEq] at hok
      obtain ⟨hrow, hk⟩ := hok
      subst hk
      obtain ⟨hdbk, pre, post, ho, hpre⟩ := findExisting_some_spec db _ e k0 hfe
      have hmem : k0 ∈ conflictLookupOrder record := by rw [ho]; simp
      rw [conflictLookupOrder_eq] at hmem
      exact ⟨List.of_mem_filter hmem, e, hdbk, hrow.symm, pre, post, ho, hpre⟩

/-- C2 witness: a record with a ManyChat id, an email and an Instagram
username, against a store where only the ManyChat id resolves. -/
theorem c2_witness :
    isUniqueViolation (str "duplicate key value violates unique constraint") = true ∧
    conflictLookupOrder c2Record = fullLookupOrder.filter (keyPresent c2Record) :=
  ⟨by decide,
   (c2_ordered_conflict_lookup (str "duplicate key value violates unique constraint")
      c2Record c2Db (by decide)).1⟩

/-- C1 (refuted — code bug): the stored contact has a non-empty manual
name that differs from its Instagram handle, and the incoming candidate
carries the non-manual source instagram_full_name.  The duplicate-merge
path indeed keeps the manual name, but the last disjunct of
`allowUpdateName` accepts any present non-manual candidate, so the later
patch-by-email step overwrites both the name and its manual
provenance. -/
theorem c1_manual_name_overwritten_by_email_patch :
    (safetyString c1Existing.name).isSome = true ∧
    safetyString c1Existing.name ≠ safetyString c1Existing.ig_username ∧
    safetyString c1Existing.name_source = some (str "manual") ∧
    safetyString c1Record.name_source = some (str "instagram_full_name") ∧
    allowUpdateExistingName c1Existing = false ∧
    (applyContactPatch c1Existing (mergePatchPayload c1Record c1Existing)).name =
      some (str "Maria Perez") ∧
    (applyContactPatch c1Existing (mergePatchPayload c1Record c1Existing)).name_source =
      some (str "manual") ∧
    allowUpdateName c1Existing (some (str "Pepe Profile")) (str "instagram_full_name") = true ∧
    (applyEmailNamePatch c1Existing
      (buildEmailNamePatch c1Existing (some (str "Pepe Profile"))
        (str "instagram_full_name") [str "Pepe", str "Profile"])).name =
      some (str "Pepe Profile") ∧
    (applyEmailNamePatch c1Existing
      (buildEmailNamePatch c1Existing (some (str "Pepe Profile"))
        (str "instagram_full_name") [str "Pepe", str "Profile"])).name_source =
      some (str "instagram_full_name") := by
  decide

/-- A retriable response (429 or 5xx) is neither ok nor a 409 nor a 422. -/
theorem retry_response_facts (r : MlResponse) (h : shouldRetryMailerLite r.status = true) :
    respOk r = false ∧ (r.status == 409) = false ∧ (r.status == 422) = false := by
  simp only [shouldRetryMailerLite, Bool.or_eq_true, beq_iff_eq, decide_eq_true_eq] at h
  refine ⟨?_, ?_, ?_⟩ <;> rcases h with h | h <;> simp [respOk, h] <;> omega

/-- C3 counterexample: `mailerliteUpsert` makes exactly one outbound call
and has no retry loop, so the 500-then-200 scenario that the claim
requires to succeed with two calls instead throws a fatal error after
one call. -/
theorem c3_counterexample :
    (c3Responses 1).status = 500 ∧ respOk (c3Responses 2) = true ∧
    mailerliteUpsertRun c3Responses = .fatal 500 1 [] := by
  decide

/-- C3 (amended): the stated retry policy holds for `syncMailerLite` —
500-then-200 succeeds with two calls and a 500ms backoff, 409 succeeds
with one call, retriable responses back off 500ms × attempt for up to 3
total attempts, and exhausting the attempts throws the last status — but
`mailerliteUpsert` performs a single call: it still treats ok, 409 and
already-422 as success, yet throws any other non-2xx without retrying. -/
theorem c3_amended_retry_policy :
    (∀ rs : Nat → MlResponse, (rs 1).status = 500 → respOk (rs 2) = true →
      syncMailerLiteRun rs = .success 2 [500]) ∧
    (∀ rs : Nat → MlResponse, (rs 1).status = 409 →
      syncMailerLiteRun rs = .success 1 []) ∧
    (∀ rs : Nat → MlResponse,
      shouldRetryMailerLite (rs 1).status = true →
      shouldRetryMailerLite (rs 2).status = true →
      respOk (rs 3) = true →
      syncMailerLiteRun rs = .success 3 [500, 1000]) ∧
    (∀ rs : Nat → MlResponse,
      shouldRetryMailerLite (rs 1).status = true →
      shouldRetryMailerLite (rs 2).status = true →
      shouldRetryMailerLite (rs 3).status = true →
      syncMailerLiteRun rs = .fatal (rs 3).status 3 [500, 1000]) ∧
    (∀ rs : Nat → MlResponse, respOk (rs 1) = false → (rs 1).status ≠ 409 →
      ((rs 1).status = 422 → (rs 1).alreadyMsg = false) →
      mailerliteUpsertRun rs = .fatal (rs 1).status 1 []) ∧
    (∀ rs : Nat → MlResponse, (rs 1).status = 409 →
      mailerliteUpsertRun rs = .success 1 []) := by
  refine ⟨?_, ?_, ?_, ?_, ?_, ?_⟩
  · intro rs h1 h2
    have e1 : respOk (rs 1) = false := by simp [respOk, h1]
    have e2 : ((rs 1).status == 409) = false := by simp [h1]
    have e3 : ((rs 1).status == 422) = false := by simp [h1]
    have e4 : shouldRetryMailerLite (rs 1).status = true := by
      simp [shouldRetryMailerLite, h1]
    simp [syncMailerLiteRun, syncMailerLiteGo, MAX_MAILERLITE_ATTEMPTS, e1, e2, e3, e4, h2]
  · intro rs h1
    have e1 : respOk (rs 1) = false := by simp [respOk, h1]
    simp [syncMailerLiteRun, syncMailerLiteGo, MAX_MAILERLITE_ATTEMPTS, e1, h1]
  · intro rs h1 h2 h3
    obtain ⟨a1, b1, c1⟩ := retry_response_facts (rs 1) h1
    obtain ⟨a2, b2, c2⟩ := retry_response_facts (rs 2) h2
    simp [syncMailerLiteRun, syncMailerLiteGo, MAX_MAILERLITE_ATTEMPTS,
      a1, b1, c1, h1, a2, b2, c2, h2, h3]
  · intro rs h1 h2 h3
    obtain ⟨a1, b1, c1⟩ := retry_response_facts (rs 1) h1
    obtain ⟨a2, b2, c2⟩ := retry_response_facts (rs 2) h2
    obtain ⟨a3, b3, c3⟩ := retry_response_facts (rs 3) h3
    simp [syncMailerLiteRun, syncMailerLiteGo, MAX_MAILERLITE_ATTEMPTS,
      a1, b1, c1, h1, a2, b2, c2, h2, a3, b3, c3]
  · intro rs h1 h2 h3
    have b1 : ((rs 1).status == 409) = false := by simp [h2]
    have b2 : ((rs 1).status == 422 && (rs 1).alreadyMsg) = false := by
      cases hq : ((rs 1).status == 422) with
      | false => simp
      | true => simp [h3 (by simpa using hq)]
    simp [mailerliteUpsertRun, h1, b1, b2]
  · intro rs h1
    have e1 : respOk (rs 1) = false := by simp [respOk, h1]
    simp [mailerliteUpsertRun, e1, h1]

/-- C3 witness: the 500-then-200 scenario against the retrying
`syncMailerLite` loop. -/
theorem c3_witness :
    (c3Responses 1).status = 500 ∧ respOk (c3Responses 2) = true ∧
    syncMailerLiteRun c3Responses = .success 2 [500] :=
  ⟨by decide, by decide, c3_amended_retry_policy.1 c3Responses (by decide) (by decide)⟩

/-- C4: for a real (non-dry) POST delivery, a failed event insert whose
status is not 409 answers 500 and runs no pipeline step; once the row is
stored (insert ok, or a 409 conflict with an existing row) the handler
answers 200 even when the pipeline throws, and the thrown error is
recorded as a FAILED status patch carrying the error text. -/
theorem c4_webhook_durability_response (ins : SbResult) (pipe : Except JStr Unit) :
    (ins.ok = false → ins.status ≠ 409 →
      webhookPersistAndProcess false ins pipe =
        { httpStatus := 500, pipelineRan := false, eventPatch := none }) ∧
    (ins.ok = true ∨ ins.status = 409 →
      (webhookPersistAndProcess false ins pipe).httpStatus = 200 ∧
      (webhookPersistAndProcess false ins pipe).pipelineRan = true) ∧
    (ins.ok = true ∨ ins.status = 409 → ∀ e : JStr, pipe = .error e →
      (webhookPersistAndProcess false ins pipe).eventPatch =
        some ⟨.FAILED, some e⟩) := by
  refine ⟨?_, ?_, ?_⟩
  · intro h1 h2
    have hb : (ins.status == 409) = false := by simp [h2]
    simp [webhookPersistAndProcess, h1, hb]
  · intro h
    have hp : (ins.ok || ins.status == 409) = true := by
      rcases h with h | h <;> simp [h]
    simp [webhookPersistAndProcess, hp]
  · intro h e he
    have hp : (ins.ok || ins.status == 409) = true := by
      rcases h with h | h <;> simp [h]
    simp [webhookPersistAndProcess, hp, he]

/-- C4 witness: a 500 insert answers 500 without processing; a stored
event answers 200 and a pipeline error lands in the FAILED patch. -/
theorem c4_witness :
    webhookPersistAndProcess false ⟨false, 500⟩ (Except.error (str "boom")) =
      { httpStatus := 500, pipelineRan := false, eventPatch := none } ∧
    (webhookPersistAndProcess false ⟨true, 201⟩ (Except.error (str "boom"))).eventPatch =
      some ⟨.FAILED, some (str "boom")⟩ :=
  ⟨(c4_webhook_durability_response ⟨false, 500⟩ (Except.error (str "boom"))).1 rfl (by decide),
   (c4_webhook_durability_response ⟨true, 201⟩ (Except.error (str "boom"))).2.2
     (Or.inl rfl) (str "boom") rfl⟩

/-- An unselectable event passes through one reprocess run untouched. -/
theorem reprocessRun_keeps (maxA : Nat) (f : WebhookEvent → Bool) (e : WebhookEvent)
    (hsel : reprocessSelectable maxA e = false) (events : List WebhookEvent)
    (he : e ∈ events) : e ∈ reprocessRun maxA f events := by
  unfold reprocessRun
  have hge : (fun e2 => if reprocessSelectable maxA e2
      then reprocessStep maxA f e2 else e2) e = e := by simp [hsel]
  exact hge ▸ List.mem_map_of_mem _ he

/-- An unselectable event passes through any sequence of reprocess runs
untouched. -/
theorem reprocessIter_keeps (maxA : Nat) (e : WebhookEvent)
    (hsel : reprocessSelectable maxA e = false) :
    ∀ (fs : List (WebhookEvent → Bool)) (events : List WebhookEvent),
      e ∈ events → e ∈ reprocessIter maxA fs events := by
  intro fs
  induction fs with
  | nil => intro events he; simpa [reprocessIter] using he
  | cons f fs ih =>
    intro events he
    exact ih _ (reprocessRun_keeps maxA f e hsel events he)

/-- C8: the reprocessor selects exactly the events with status NEW or
FAILED, permanent_failed false and attempt count below the maximum; a
retried event's attempt count is incremented; a rerun failure marks the
event FAILED and permanently failed exactly when the incremented count
reaches the maximum; and a permanently failed event is never selected
again and survives any sequence of later automatic runs unchanged. -/
theorem c8_reprocessor_selection_and_ceiling (maxA : Nat) (f : WebhookEvent → Bool)
    (e : WebhookEvent) :
    (reprocessSelectable maxA e = true ↔
      ((e.status = .NEW ∨ e.status = .FAILED) ∧ e.permanent_failed = false ∧
        e.attempt_count < maxA)) ∧
    ((reprocessStep maxA f e).attempt_count = e.attempt_count + 1) ∧
    (f e = false → (reprocessStep maxA f e).status = .FAILED ∧
      ((reprocessStep maxA f e).permanent_failed = true ↔ maxA ≤ e.attempt_count + 1)) ∧
    (e.permanent_failed = true → reprocessSelectable maxA e = false) ∧
    (e.permanent_failed = true →
      ∀ (fs : List (WebhookEvent → Bool)) (events : List WebhookEvent),
        e ∈ events → e ∈ reprocessIter maxA fs events) := by
  refine ⟨?_, ?_, ?_, ?_, ?_⟩
  · constructor
    · intro h; simp [reprocessSelectable] at h; tauto
    · intro h; simp [reprocessSelectable]; tauto
  · unfold reprocessStep; cases hf : f e <;> simp [hf]
  · intro hf; unfold reprocessStep; simp [hf]
  · intro hp; simp [reprocessSelectable, hp]
  · intro hp fs events he
    exact reprocessIter_keeps maxA e (by simp [reprocessSelectable, hp]) fs events he

/-- C8 witness: a FAILED event one attempt below a maximum of five is
selected, and a failing rerun at the ceiling marks it permanent. -/
theorem c8_witness :
    reprocessSelectable 5 c8Event = true ∧
    (reprocessStep 5 (fun _ => false) c8Event).permanent_failed = true :=
  ⟨by decide,
   ((c8_reprocessor_selection_and_ceiling 5 (fun _ => false) c8Event).2.2.1 rfl).2.mpr
     (by decide)⟩

/-- C5 counterexample: the payload carrying only the raw DM text "hola"
does not yield confidence 0.0 — the raw text reaches the message field
through the text fallback, so one of the five counted fields is filled
and the confidence is 0.2. -/
theorem c5_counterexample :
    (parseLeadDetails noLoc holaPayload none).message = some (str "hola") ∧
    (parseLeadDetails noLoc holaPayload none).confidence.eqv (frac 1 5) ∧
    ¬ (parseLeadDetails noLoc holaPayload none).confidence.eqv (frac 0 1) := by
  decide

/-- C5 (amended): the stored confidence always equals the formula —
(filled fields among email, name, country, city, message)/5, plus 0.1
when a phone was extracted, clamped to 1.0 and rounded to two
decimals — and the "hola" payload yields confidence 0.2 (its raw text
fills the message field), which still triggers the below-0.4 alert; the
labelled full payload yields confidence 1.0. -/
theorem c5_confidence_formula :
    (∀ (parseLoc : JStr → Option JStr × Option JStr) (payload : MCPayload)
       (contact : Option MCContact),
      (parseLeadDetails parseLoc payload contact).confidence =
        leadConfidence (parseLeadDetails parseLoc payload contact)) ∧
    (parseLeadDetails noLoc holaPayload none).confidence.eqv (frac 1 5) ∧
    lowConfidenceAlert (parseLeadDetails noLoc holaPayload none).confidence = true ∧
    (parseLeadDetails noLoc fullLeadPayload none).confidence.eqv (frac 1 1) ∧
    (parseLeadDetails noLoc fullLeadPayload none).phone = none := by
  refine ⟨?_, by decide, by decide, by decide, by decide⟩
  intro parseLoc payload contact
  rfl

set_option maxRecDepth 100000 in
/-- C6: the resolver maps "Soy de La Paz bolivia" to city La Paz and
country Bolivia (suffix-split against the country table, prefix matched
as a city), maps the Costa Rica DM to the comma-segment city San Carlos
rather than the pueblo named later in the same sentence, and for the
country-less "vivo en Valencia" infers Venezuela through the static
city→country lookup. -/
theorem c6_location_resolver :
    extractLocationFromText (some (str "Soy de La Paz bolivia")) =
      some { city := some (str "La Paz"), country := some (str "Bolivia"),
             score := frac 1 2, source := str "dm_text" } ∧
    (extractLocationFromText (some (str "Estoy en Costa Rica, San Carlos, el pueblo se llama San Vicente, muchas gracias claro que sí"))).map
      (fun g => (g.city, g.country)) =
      some (some (str "San Carlos"), some (str "Costa Rica")) ∧
    (extractLocationFromText (some (str "vivo en Valencia"))).map
      (fun g => (g.city, g.country)) =
      some (some (str "Valencia"), some (str "Venezuela")) ∧
    lookupCountry (some (str "Valencia")) = some (str "Venezuela") := by
  refine ⟨by decide, by decide, by decide, by decide⟩

/-- C7 counterexample: the claim as stated fails in two ways — a
candidate containing the brace artifact is not always rejected, because
`stripPlaceholderArtifacts` removes the artifact and a clean prefix
survives as the candidate; and a string whose digits exceed half its
letter count can still pass, because the code floors the digit allowance
at 2 (`max(2, letters/2)`). -/
theorem c7_counterexample :
    containsSub [braceO, braceO] (str "Juan \x7b\x7bname\x7d\x7d") = true ∧
    deriveName (some (str "Juan \x7b\x7bname\x7d\x7d")) none none none =
      ⟨some (str "Juan"), frac 9 10, some (str "ig_full_name")⟩ ∧
    (((str "Ab12").filter isNameLetter).length / 2 <
      ((str "Ab12").filter isDigitChar).length) ∧
    deriveName (some (str "Ab12")) none none none =
      ⟨some (str "Ab12"), frac 9 10, some (str "ig_full_name")⟩ := by
  decide

/-- C7 (amended): the junk rules hold of the candidate left after
artifact stripping and trimming: if that string contains @, matches the
placeholder block-list, still contains a brace or percent-encoded-brace
fragment, has fewer than two letters, or has more digits than
max(2, letters/2), then `sanitizeName` returns no candidate. -/
theorem c7_junk_rejected_after_stripping (raw : JStr)
    (h :
      (jsTrim (stripPlaceholderArtifacts raw)).any (· = '@') = true ∨
      badList.any (fun b => b == jsLower (jsTrim (stripPlaceholderArtifacts raw))) = true ∨
      placeholderFragTest (jsTrim (stripPlaceholderArtifacts raw)) = true ∨
      ((jsTrim (stripPlaceholderArtifacts raw)).filter isNameLetter).length < 2 ∨
      Nat.max 2 (((jsTrim (stripPlaceholderArtifacts raw)).filter isNameLetter).length / 2) <
        ((jsTrim (stripPlaceholderArtifacts raw)).filter isDigitChar).length) :
    sanitizeName (some raw) = none := by
  have hidem : jsTrim (jsTrim (stripPlaceholderArtifacts raw)) =
      jsTrim (stripPlaceholderArtifacts raw) := jsTrim_idem _
  have hb : isBadName (some (jsTrim (stripPlaceholderArtifacts raw))) = true := by
    simp only [isBadName]
    rw [hidem]
    unfold isBadNameChecks
    rcases h with h | h | h | h | h <;> simp [h]
  simp [sanitizeName, hb]

/-- C7 witness: the block-listed placeholder phrase "tu nombre" yields
no candidate. -/
theorem c7_witness :
    badList.any
      (fun b => b == jsLower (jsTrim (stripPlaceholderArtifacts (str "tu nombre")))) = true ∧
    sanitizeName (some (str "tu nombre")) = none :=
  ⟨by decide, c7_junk_rejected_after_stripping (str "tu nombre") (Or.inr (Or.inl (by decide)))⟩

end CRM
